import Mathlib

/-!
# Verification of the gwob Wavefront OBJ parser (udhos/gwob, src/obj.go)

Shallow embedding of the decoding/encoding engine of `src/obj.go` together
with the numeric-field helpers of the repository.  Translation conventions:

* Go `float32`/`float64` values are modeled as exact fractions (`GoFloat`,
  an integer numerator/denominator pair kept unnormalized so that every
  operation is structurally recursive and kernel-computable).  Numeric text
  fields are parsed to their exact decimal value; IEEE rounding, hexadecimal
  float literals, `inf`/`nan` and division by a zero homogeneous coordinate
  are not modeled — no claim below depends on them.
* Go slices become `List`s; the Go runtime panic raised by an out-of-range
  slice index is modeled by an explicit `crash` constructor in the result
  types (`AVOut`, `LineOut`, `ScanOut`, `DecodeOut`, `WriterOut`).
* `map[string]int` becomes an association list (`List (String × Int)`);
  the parser only ever inserts a key that is absent, so lookup agrees.
* The Go `*Group` "current group" pointer into `o.Groups` becomes the
  index `currGroup : Nat` into the `groups` list.
* The diagnostic callback `options.Logger` becomes an accumulated
  `List String`; `fmt.Sprintf` formatting is reproduced by concatenation
  (inner `strconv` error texts are abbreviated to a fixed word, no claim
  inspects them).
* String operations are modeled on the character list `String.data`
  (the Go code only slices at ASCII keyword boundaries, where Go's byte
  offsets and character offsets agree).
-/

namespace Gwob

/-! ## Go string primitives -/

/-- Go `strings.HasPrefix p s` (byte-level, here character-level). -/
def goHasPfx (pre s : String) : Bool :=
  pre.data.isPrefixOf s.data

/-- Go slice expression `s[n:]` for an ASCII cut point. -/
def goDrop (s : String) (n : Nat) : String :=
  ⟨s.data.drop n⟩

/-- Go expression `s[0]` guarded by `s != ""` (default value unreachable). -/
def goFront (s : String) : Char :=
  s.data.headD (Char.ofNat 0)

/-- Go `unicode.IsSpace` restricted to ASCII (the only characters the
repository's inputs exercise). -/
def isSpaceGo (c : Char) : Bool :=
  c = ' ' ∨ c = '\t' ∨ c = '\n' ∨ c = '\x0b' ∨ c = '\x0c' ∨ c = '\r'

/-- Go `strings.TrimSpace`. -/
def goTrim (s : String) : String :=
  ⟨((s.data.dropWhile isSpaceGo).reverse.dropWhile isSpaceGo).reverse⟩

/-- Split a character list at every separator (empty pieces kept). -/
def splitFuncAux (f : Char → Bool) : List Char → List (List Char)
  | [] => [[]]
  | c :: rest =>
    let r := splitFuncAux f rest
    if f c then [] :: r
    else
      match r with
      | [] => [[c]]
      | l :: ls => (c :: l) :: ls

/-- Go `strings.FieldsFunc`: split around separators, no empty fields. -/
def goFieldsFunc (f : Char → Bool) (s : String) : List String :=
  ((splitFuncAux f s.data).map (fun l => (⟨l⟩ : String))).filter (fun t => t ≠ "")

/-- Go `strings.Fields` (split on whitespace). -/
def goFields (s : String) : List String :=
  goFieldsFunc isSpaceGo s

/-- Go `strings.Replace index "//" "/0/" 1`: rewrite the first `//`. -/
def replaceDoubleSlashAux : List Char → List Char
  | '/' :: '/' :: rest => '/' :: '0' :: '/' :: rest
  | c :: rest => c :: replaceDoubleSlashAux rest
  | [] => []

/-- String form of `replaceDoubleSlashAux`. -/
def replaceDoubleSlash (s : String) : String :=
  ⟨replaceDoubleSlashAux s.data⟩

/-- Go `strings.Index index "//" != -1`. -/
def hasDoubleSlashAux : List Char → Bool
  | '/' :: '/' :: _ => true
  | _ :: rest => hasDoubleSlashAux rest
  | [] => false

/-- String form of `hasDoubleSlashAux`. -/
def hasDoubleSlash (s : String) : Bool :=
  hasDoubleSlashAux s.data

/-- The successive lines of a text, split at every newline (the Go reader
returns each chunk including its terminator; the parsers trim it away). -/
def splitLinesAux : List Char → List (List Char)
  | [] => [[]]
  | c :: rest =>
    let r := splitLinesAux rest
    if c = '\n' then [] :: r
    else
      match r with
      | [] => [[c]]
      | l :: ls => (c :: l) :: ls

/-- String form of `splitLinesAux`. -/
def goSplitNewline (s : String) : List String :=
  (splitLinesAux s.data).map (fun l => (⟨l⟩ : String))

/-- Go `strings.ToLower` (ASCII). -/
def goToLower (s : String) : String :=
  ⟨s.data.map Char.toLower⟩

/-! ## Numeric field parsing (`parse_util.go` helpers and `strconv`) -/

/-- Value of a list of decimal digit characters. -/
def digitsVal (cs : List Char) : Nat :=
  cs.foldl (fun a c => 10 * a + (c.toNat - 48)) 0

/-- Digit value of a character in bases up to 16, as `strconv` accepts it. -/
def digitVal (c : Char) : Option Nat :=
  if c.isDigit then some (c.toNat - 48)
  else if 'a' ≤ c ∧ c ≤ 'f' then some (c.toNat - 87)
  else if 'A' ≤ c ∧ c ≤ 'F' then some (c.toNat - 55)
  else none

/-- Whether `c` is a valid digit in base `b`. -/
def isBaseDigit (b : Nat) (c : Char) : Bool :=
  match digitVal c with
  | some v => v < b
  | none => false

/-- Value of digit characters in base `b`. -/
def baseVal (b : Nat) (cs : List Char) : Nat :=
  cs.foldl (fun a c => b * a + ((digitVal c).getD 0)) 0

/-- Split an optional leading sign, as `strconv.ParseInt` does. -/
def splitSign (cs : List Char) : Int × List Char :=
  match cs with
  | '+' :: r => (1, r)
  | '-' :: r => (-1, r)
  | _ => (1, cs)

/-- Go `strconv.ParseInt(s, 10, 32)`: optional sign, decimal digits,
32-bit range check; failure (including overflow) is `none`. -/
def parseIntBase10 (s : String) : Option Int :=
  let (sign, ds) := splitSign s.data
  if ds.isEmpty ∨ ¬ ds.all (fun c => c.isDigit) then none
  else
    let v : Int := sign * (digitsVal ds : Int)
    if v < -(2 ^ 31) ∨ v > 2 ^ 31 - 1 then none else some v

/-- Go `strconv.ParseInt(s, 0, 32)`: base detected from a `0x`/`0o`/`0b`
prefix or a leading `0` (octal); digit-group underscores are not modeled.
Failure (including overflow) is `none`. -/
def parseIntBase0 (s : String) : Option Int :=
  let (sign, ds) := splitSign s.data
  let (base, digits) :=
    match ds with
    | '0' :: c :: r =>
      if c = 'x' ∨ c = 'X' then (16, r)
      else if c = 'o' ∨ c = 'O' then (8, r)
      else if c = 'b' ∨ c = 'B' then (2, r)
      else (8, c :: r)
    | _ => (10, ds)
  if digits.isEmpty ∨ ¬ digits.all (fun c => isBaseDigit base c) then none
  else
    let v : Int := sign * (baseVal base digits : Int)
    if v < -(2 ^ 31) ∨ v > 2 ^ 31 - 1 then none else some v

/-- Exponent part of a float literal: optional sign and decimal digits. -/
def parseExponent (cs : List Char) : Option Int :=
  let (sign, ds) := splitSign cs
  if ds.isEmpty ∨ ¬ ds.all (fun c => c.isDigit) then none
  else some (sign * (digitsVal ds : Int))

/-- Numeric scalar: a Go float value modeled as the exact fraction
`num / den`.  Values are kept unnormalized (no gcd) so that construction,
division and comparison reduce inside the Lean kernel; every value the
parser builds has `den > 0`. -/
structure GoFloat where
  num : Int
  den : Int
  deriving Repr, DecidableEq

instance : Inhabited GoFloat := ⟨⟨0, 1⟩⟩

/-- Go float division `a / b` (exact; a zero divisor, which Go turns into
an infinity, yields the unused denominator 0). -/
def GoFloat.div (a b : GoFloat) : GoFloat :=
  if b.num < 0 then ⟨-(a.num * b.den), a.den * (-b.num)⟩
  else ⟨a.num * b.den, a.den * b.num⟩

/-- Go `strconv.ParseFloat` idealized to the exact decimal value:
optional sign, `digits[.digits]` with at least one digit, optional
`e`/`E` exponent. -/
def parseFloat (s : String) : Option GoFloat :=
  let (sign, cs) := splitSign s.data
  let intDigits := cs.takeWhile (fun c => c.isDigit)
  let rest1 := cs.dropWhile (fun c => c.isDigit)
  let (fracDigits, rest2) :=
    match rest1 with
    | '.' :: r => (r.takeWhile Char.isDigit, r.dropWhile Char.isDigit)
    | _ => ([], rest1)
  if intDigits.isEmpty ∧ fracDigits.isEmpty then none
  else
    let num : Int := sign * ((digitsVal intDigits : Int) * 10 ^ fracDigits.length +
      (digitsVal fracDigits : Int))
    let den : Int := 10 ^ fracDigits.length
    match rest2 with
    | [] => some ⟨num, den⟩
    | c :: r =>
      if c = 'e' ∨ c = 'E' then
        match parseExponent r with
        | some k =>
          if 0 ≤ k then some ⟨num * 10 ^ k.toNat, den⟩
          else some ⟨num, den * 10 ^ (-k).toNat⟩
        | none => none
      else none

/-- `parseFloatSlice` of `parse_util.go`: parse every field, reporting the
first failure with its position. -/
def parseFloatSlice (list : List String) : Except String (List GoFloat) :=
  go list 0
where
  go : List String → Nat → Except String (List GoFloat)
  | [], _ => .ok []
  | j :: rest, i =>
    match parseFloat (goTrim j) with
    | none =>
      .error ("parseFloatSlice: list=[" ++ String.intercalate " " list ++ "] elem[" ++
        toString i ++ "]=[" ++ goTrim j ++ "] failure: invalid syntax")
    | some v =>
      match go rest (i + 1) with
      | .error e => .error e
      | .ok vs => .ok (v :: vs)

/-- `parseFloatSliceSpace` of `parse_util.go`. -/
def parseFloatSliceSpace (text : String) : Except String (List GoFloat) :=
  parseFloatSlice (goFields text)

/-- `parseFloatVectorSpace` of `parse_util.go` (fixed arity). -/
def parseFloatVectorSpace (text : String) (size : Nat) : Except String (List GoFloat) :=
  let list := goFields text
  if list.length ≠ size then
    .error ("parseFloatVectorFunc: text=[" ++ text ++ "] size=" ++ toString list.length ++
      " must be " ++ toString size)
  else parseFloatSlice list

/-- `parseFloatVector3Space` of `parse_util.go`. -/
def parseFloatVector3Space (text : String) : Except String (List GoFloat) :=
  parseFloatVectorSpace text 3

/-- `closeToZero` of `obj.go`: `|f - 0| < 0.000001`, i.e.
`|num| * 1000000 < |den|` for the exact fraction. -/
def closeToZero (f : GoFloat) : Bool :=
  f.num.natAbs * 1000000 < f.den.natAbs

/-- Left-pad a digit string with zeros to width `n`. -/
def padZeros (s : String) (n : Nat) : String :=
  ⟨List.replicate (n - s.data.length) '0' ++ s.data⟩

/-- Go `fmt` verb `%f` (default precision 6), idealized to rounding the
exact fraction to six decimal places (half away from zero). -/
def formatFloat6 (q : GoFloat) : String :=
  let n := q.num * 1000000
  let scaled : Nat := (2 * n.natAbs + q.den.natAbs) / (2 * q.den.natAbs)
  let sign := if (0 ≤ q.num * q.den ∨ scaled = 0 : Prop) then "" else "-"
  sign ++ toString (scaled / 1000000) ++ "." ++ padZeros (toString (scaled % 1000000)) 6

/-! ## Data model (`obj.go`) -/

/-- `Group` of `obj.go`: parser result for one group. -/
structure Group where
  name : String
  smooth : Int
  usemtl : String
  indexBegin : Int
  indexCount : Int
  deriving Repr, DecidableEq, Inhabited

/-- `Obj` of `obj.go`: parser result for an .obj stream. -/
structure Obj where
  indices : List Int := []
  coord : List GoFloat := []
  mtllib : String := ""
  groups : List Group := []
  bigIndexFound : Bool := false
  textCoordFound : Bool := false
  normCoordFound : Bool := false
  strideSize : Int := 0
  strideOffsetPosition : Int := 0
  strideOffsetTexture : Int := 0
  strideOffsetNormal : Int := 0
  deriving Repr, DecidableEq, Inhabited

/-- `objParser` of `obj.go`: auxiliary internal parser state. -/
structure ObjParser where
  lineBuf : List String := []
  lineCount : Int := 0
  vertCoord : List GoFloat := []
  textCoord : List GoFloat := []
  normCoord : List GoFloat := []
  currGroup : Nat := 0
  indexTable : List (String × Int) := []
  indexCount : Int := 0
  vertLines : Int := 0
  textLines : Int := 0
  normLines : Int := 0
  faceLines : Int := 0
  triangles : Int := 0
  deriving Repr, DecidableEq, Inhabited

/-- `ObjParserOptions` of `obj.go` (the logger callback is modeled by
accumulating the diagnostic strings it would receive). -/
structure ObjParserOptions where
  logStats : Bool := false
  ignoreNormals : Bool := false
  deriving Repr, DecidableEq, Inhabited

/-- `Obj.newGroup` of `obj.go`: append a fresh group, return its index
(the Go code returns the pointer to the appended element). -/
def Obj.newGroup (o : Obj) (name usemtl : String) (indexBegin smooth : Int) : Obj × Nat :=
  let gr : Group :=
    { name := name, usemtl := usemtl, indexBegin := indexBegin, smooth := smooth,
      indexCount := 0 }
  ({ o with groups := o.groups ++ [gr] }, o.groups.length)

/-- Read the group the Go `*Group` pointer designates. -/
def getGroup (o : Obj) (i : Nat) : Group :=
  o.groups.getD i default

/-- Write through the Go `*Group` pointer. -/
def setGroup (o : Obj) (i : Nat) (g : Group) : Obj :=
  { o with groups := o.groups.set i g }

/-- `pushIndex` of `obj.go`: record one unified index into the index list
and the current group. -/
def pushIndex (currGroup : Nat) (o : Obj) (i : Int) : Obj :=
  let o1 := if i > 65535 then { o with bigIndexFound := true } else o
  let o2 := { o1 with indices := o1.indices ++ [i] }
  let g := getGroup o2 currGroup
  setGroup o2 currGroup { g with indexCount := g.indexCount + 1 }

/-- `setupStride` of `obj.go`. -/
def setupStride (o : Obj) : Obj :=
  let o := { o with strideSize := 3 * 4, strideOffsetPosition := 0,
                    strideOffsetTexture := 0, strideOffsetNormal := 0 }
  let o := if o.textCoordFound then
      { o with strideOffsetTexture := o.strideSize, strideSize := o.strideSize + 2 * 4 }
    else o
  if o.normCoordFound then
    { o with strideOffsetNormal := o.strideSize, strideSize := o.strideSize + 3 * 4 }
  else o

/-- `solveRelativeIndex` of `obj.go`. -/
def solveRelativeIndex (index size : Int) : Int :=
  if index > 0 then index - 1 else size + index

/-- `splitSlash` of `obj.go` (`strings.FieldsFunc` on `/`). -/
def splitSlash (s : String) : List String :=
  goFieldsFunc (fun c => c = '/') s

/-- `smoothGroup` of `obj.go`: `off` is 0, otherwise base-detecting integer
parse. -/
def smoothGroup (s : String) : Option Int :=
  let s := goToLower (goTrim s)
  if s = "off" then some 0 else parseIntBase0 s

/-! ## Index resolution and vertex welding (`addVertex`, `obj.go` 611-692) -/

/-- Result of resolving one face vertex reference (`addVertex` front half,
`obj.go` 612-647): the resolved indices, the textual components of the
composite key, and the composite key itself. -/
inductive RefResult where
  | ok (vi ti : Int) (tIndex : String) (ni : Int) (nIndex : String)
       (hasTextureCoord : Bool) (absIndex : String)
  | err (msg : String)
  deriving Repr, DecidableEq

/-- Composite key of a successfully resolved reference. -/
def RefResult.key : RefResult → Option String
  | .ok _ _ _ _ _ _ a => some a
  | .err _ => none

/-- Front half of `addVertex` (`obj.go` 612-647): split the reference on
slashes (after turning the first `//` into `/0/`), resolve each present
component index against its running count, and build the composite key
`vi/tIndex/nIndex` (empty string for an absent component). -/
def resolveRef (p : ObjParser) (index : String) : RefResult :=
  let ind := splitSlash (replaceDoubleSlash index)
  let size := ind.length
  if size < 1 ∨ size > 3 then
    .err ("addVertex: line=" ++ toString p.lineCount ++ " bad index=[" ++ index ++
      "] size=" ++ toString size)
  else
    match parseIntBase10 (ind.getD 0 "") with
    | none =>
      .err ("addVertex: line=" ++ toString p.lineCount ++ " bad integer 1st index=[" ++
        ind.getD 0 "" ++ "]: invalid syntax")
    | some v =>
      let vi := solveRelativeIndex v p.vertLines
      let hasTextureCoord : Bool := !hasDoubleSlash index && decide (size > 1)
      match (if hasTextureCoord then
          (parseIntBase10 (ind.getD 1 "")).map (fun t => solveRelativeIndex t p.textLines)
        else some 0) with
      | none =>
        .err ("addVertex: line=" ++ toString p.lineCount ++ " bad integer 2nd index=[" ++
          ind.getD 1 "" ++ "]: invalid syntax")
      | some ti =>
        let tIndex := if hasTextureCoord then toString ti else ""
        match (if size > 2 then
            (parseIntBase10 (ind.getD 2 "")).map (fun n => solveRelativeIndex n p.normLines)
          else some 0) with
        | none =>
          .err ("addVertex: line=" ++ toString p.lineCount ++ " bad integer 3rd index=[" ++
            ind.getD 2 "" ++ "]: invalid syntax")
        | some ni =>
          let nIndex := if size > 2 then toString ni else ""
          .ok vi ti tIndex ni nIndex hasTextureCoord
            (toString vi ++ "/" ++ tIndex ++ "/" ++ nIndex)

/-- Result of `addVertex`: the Go function mutates `p` and `o` in place, so
an error carries the partially mutated state; `crash` models the Go runtime
panic of an unchecked out-of-range slice access. -/
inductive AVOut where
  | ok (p : ObjParser) (o : Obj)
  | err (p : ObjParser) (o : Obj) (msg : String)
  | crash
  deriving Repr, DecidableEq

/-- Go slice read `l[i]` on a `[]float32`: `none` models the runtime panic
(negative index or index beyond the length). -/
def goIndex (l : List GoFloat) (i : Int) : Option GoFloat :=
  if 0 ≤ i then l.get? i.toNat else none

/-- Go slice read on a `[]int`. -/
def goIndexInt (l : List Int) (i : Int) : Option Int :=
  if 0 ≤ i then l.get? i.toNat else none

/-- Final block of `addVertex` (`obj.go` 686-691): push the fresh unified
index and record the composite-key mapping. -/
def finishVertex (p : ObjParser) (o : Obj) (absIndex : String) : AVOut :=
  let o := pushIndex p.currGroup o p.indexCount
  .ok { p with indexTable := p.indexTable ++ [(absIndex, p.indexCount)],
               indexCount := p.indexCount + 1 } o

/-- Normal block of `addVertex` (`obj.go` 676-684): append the normal
components when present and not globally disabled — with *no* bounds
check, so an out-of-range normal offset is the Go runtime panic. -/
def normStep (p : ObjParser) (o : Obj) (ni : Int) (nIndex : String)
    (absIndex : String) (options : ObjParserOptions) : AVOut :=
  if ¬ options.ignoreNormals ∧ nIndex ≠ "" then
    match goIndex p.normCoord (ni * 3), goIndex p.normCoord (ni * 3 + 1),
          goIndex p.normCoord (ni * 3 + 2) with
    | some a, some b, some c =>
      finishVertex p { o with coord := o.coord ++ [a, b, c], normCoordFound := true }
        absIndex
    | _, _, _ => .crash
  else finishVertex p o absIndex

/-- Texture block of `addVertex` (`obj.go` 664-674): append the texture
components when present; the offset is bounds-checked upward only (a
negative resolved texture index panics). -/
def texStep (p : ObjParser) (o : Obj) (ind : List String) (ti : Int)
    (tIndex : String) (hasTextureCoord : Bool) (ni : Int) (nIndex : String)
    (absIndex : String) (options : ObjParserOptions) : AVOut :=
  if tIndex ≠ "" ∧ hasTextureCoord then
    if ti * 2 + 1 ≥ (p.textCoord.length : Int) then
      .err p o ("err: line=" ++ toString p.lineCount ++ " invalid texture index=[" ++
        ind.getD 1 "" ++ "]")
    else
      match goIndex p.textCoord (ti * 2), goIndex p.textCoord (ti * 2 + 1) with
      | some u, some v =>
        normStep p { o with coord := o.coord ++ [u, v], textCoordFound := true }
          ni nIndex absIndex options
      | _, _ => .crash
  else normStep p o ni nIndex absIndex options

/-- Back half of `addVertex` (`obj.go` 649-691): reuse the unified index
recorded for the composite key, or append a new interleaved vertex record
(position block `obj.go` 655-662, then texture, normal and final blocks).
The position offset is bounds-checked upward only (a negative resolved
index panics). -/
def addVertexKnown (p : ObjParser) (o : Obj) (ind : List String)
    (vi ti : Int) (tIndex : String) (ni : Int) (nIndex : String)
    (hasTextureCoord : Bool) (absIndex : String)
    (options : ObjParserOptions) : AVOut :=
  match p.indexTable.lookup absIndex with
  | some i => .ok p (pushIndex p.currGroup o i)
  | none =>
    if vi * 3 + 2 ≥ (p.vertCoord.length : Int) then
      .err p o ("err: line=" ++ toString p.lineCount ++ " invalid vertex index=[" ++
        ind.getD 0 "" ++ "]")
    else
      match goIndex p.vertCoord (vi * 3), goIndex p.vertCoord (vi * 3 + 1),
            goIndex p.vertCoord (vi * 3 + 2) with
      | some x, some y, some z =>
        texStep p { o with coord := o.coord ++ [x, y, z] } ind ti tIndex
          hasTextureCoord ni nIndex absIndex options
      | _, _, _ => .crash

/-- `addVertex` of `obj.go` (611-692). -/
def addVertex (p : ObjParser) (o : Obj) (index : String)
    (options : ObjParserOptions) : AVOut :=
  let ind := splitSlash (replaceDoubleSlash index)
  match resolveRef p index with
  | .err m => .err p o m
  | .ok vi ti tIndex ni nIndex hasTextureCoord absIndex =>
    addVertexKnown p o ind vi ti tIndex ni nIndex hasTextureCoord absIndex options

/-! ## Pass 1: vertex-only parsing (`parseLineVertex`, `readLines`) -/

/-- Result of parsing one line: the Go functions mutate `p`/`o` in place and
return a (fatal, error) pair; errors here are always non-fatal
(`ErrNonFatal`), so only the message is kept. -/
inductive LineOut where
  | ok (p : ObjParser) (o : Obj) (logs : List String)
  | err (p : ObjParser) (o : Obj) (logs : List String) (msg : String)
  | crash
  deriving Repr, DecidableEq

/-- The Mesh component a line-parsing step returns (`none` on a crash). -/
def LineOut.obj : LineOut → Option Obj
  | .ok _ o _ => some o
  | .err _ o _ _ => some o
  | .crash => none

/-- The state components an erroring line-parsing step returns. -/
def LineOut.errOut : LineOut → Option (ObjParser × Obj × List String)
  | .err p o lg _ => some (p, o, lg)
  | _ => none

/-- Body of `parseLineVertex` of `obj.go` (503-565) on the already trimmed
and buffered line: collect raw `v`/`vt`/`vn` component data. -/
def parseLineVertexCore (p : ObjParser) (o : Obj) (line : String)
    (_options : ObjParserOptions) : LineOut :=
  if line = "" ∨ goFront line = '#' then .ok p o []
  else if goHasPfx "s " line then .ok p o []
  else if goHasPfx "o " line then .ok p o []
  else if goHasPfx "g " line then .ok p o []
  else if goHasPfx "usemtl " line then .ok p o []
  else if goHasPfx "mtllib " line then .ok p o []
  else if goHasPfx "f " line then .ok p o []
  else if goHasPfx "vt " line then
    match parseFloatSliceSpace (goDrop line 3) with
    | .error e =>
      .err p o [] ("parseLine: line=" ++ toString p.lineCount ++ " bad vertex texture=[" ++
        goDrop line 3 ++ "]: " ++ e)
    | .ok t =>
      if t.length < 2 ∨ t.length > 3 then
        .err p o [] ("parseLine: line=" ++ toString p.lineCount ++ " bad vertex texture=[" ++
          goDrop line 3 ++ "] size=" ++ toString t.length)
      else
        .ok { p with textCoord := p.textCoord ++ [t.getD 0 default, t.getD 1 default] } o
          (if t.length > 2 ∧ ¬ closeToZero (t.getD 2 default) then
            ["parseLine: line=" ++ toString p.lineCount ++
              " non-zero third texture coordinate w=" ++ formatFloat6 (t.getD 2 default) ++
              ": [" ++ line ++ "]"]
          else [])
  else if goHasPfx "vn " line then
    match parseFloatVector3Space (goDrop line 3) with
    | .error e =>
      .err p o [] ("parseLine: line=" ++ toString p.lineCount ++ " bad vertex normal=[" ++
        goDrop line 3 ++ "]: " ++ e)
    | .ok n =>
      .ok { p with normCoord := p.normCoord ++ [n.getD 0 default, n.getD 1 default, n.getD 2 default] } o []
  else if goHasPfx "v " line then
    match parseFloatSliceSpace (goDrop line 2) with
    | .error e =>
      .err p o [] ("parseLine " ++ toString p.lineCount ++ ": [" ++ line ++ "]: error: " ++ e)
    | .ok result =>
      match result with
      | [a, b, c] => .ok { p with vertCoord := p.vertCoord ++ [a, b, c] } o []
      | [a, b, c, w] =>
        .ok { p with vertCoord := p.vertCoord ++ [a.div w, b.div w, c.div w] } o []
      | _ =>
        .err p o [] ("parseLine " ++ toString p.lineCount ++ ": [" ++ line ++
          "]: bad number of coords: " ++ toString result.length)
  else
    .err p o [] ("parseLine " ++ toString p.lineCount ++ ": [" ++ line ++ "]: unexpected")

/-- `parseLineVertex` of `obj.go` (503-565): trim the line, buffer it for
the second pass, and collect raw `v`/`vt`/`vn` component data. -/
def parseLineVertex (p : ObjParser) (o : Obj) (rawLine : String)
    (options : ObjParserOptions) : LineOut :=
  parseLineVertexCore { p with lineBuf := p.lineBuf ++ [goTrim rawLine] } o
    (goTrim rawLine) options

/-- `readLines` of `obj.go` (471-500): feed every input line through
`parseLineVertex`; for an in-memory input no fatal I/O error can occur, so
the pass always runs to the end, logging the non-fatal errors. -/
def readLines (p : ObjParser) (o : Obj) (lines : List String)
    (options : ObjParserOptions) : ObjParser × Obj × List String :=
  go { p with lineCount := 0 } o lines []
where
  go (p : ObjParser) (o : Obj) : List String → List String → ObjParser × Obj × List String
  | [], logs => (p, o, logs)
  | l :: rest, logs =>
    let p := { p with lineCount := p.lineCount + 1 }
    match parseLineVertex p o l options with
    | .ok p o lg => go p o rest (logs ++ lg)
    | .err p o lg m => go p o rest (logs ++ lg ++ ["readLines: " ++ m])
    | .crash => (p, o, logs)

/-! ## Pass 2: full parsing (`parseLine`, `scanLines`, `obj.go` 567-796) -/

/-- One face vertex reference inside the `f ` case (`obj.go` 763-783):
`addVertex` plus the error wrapping of the surrounding `if` statement. -/
def addVertexFace (p : ObjParser) (o : Obj) (ref face label : String)
    (options : ObjParserOptions) : LineOut :=
  match addVertex p o ref options with
  | .crash => .crash
  | .err p o m =>
    .err p o [] ("parseLine: line=" ++ toString p.lineCount ++ " bad face=[" ++ face ++
      "] index_" ++ label ++ "=[" ++ ref ++ "]: " ++ m)
  | .ok p o => .ok p o []

/-- Sequencing of the face-vertex steps: Go returns from `parseLine` at the
first failing reference, keeping the mutations already made. -/
def bindFace (r : LineOut) (f : ObjParser → Obj → LineOut) : LineOut :=
  match r with
  | .ok p o _ => f p o
  | e => e

/-- Body of the `f ` case of `parseLine` (`obj.go` 748-784): 3 or 4
whitespace-separated vertex references; a quad is emitted as the two
triangles `(v0,v1,v2)` and `(v2,v3,v0)`. -/
def parseFace (p : ObjParser) (o : Obj) (face : String)
    (options : ObjParserOptions) : LineOut :=
  let f := goFields face
  let size := f.length
  if size < 3 ∨ size > 4 then
    .err p o [] ("parseLine: line=" ++ toString p.lineCount ++ " bad face=[" ++ face ++
      "] size=" ++ toString size)
  else
    let p := { p with triangles := p.triangles + 1 }
    bindFace (addVertexFace p o (f.getD 0 "") face "v0" options) fun p o =>
    bindFace (addVertexFace p o (f.getD 1 "") face "v1" options) fun p o =>
    bindFace (addVertexFace p o (f.getD 2 "") face "v2" options) fun p o =>
      if size > 3 then
        let p := { p with triangles := p.triangles + 1 }
        bindFace (addVertexFace p o (f.getD 2 "") face "v2" options) fun p o =>
        bindFace (addVertexFace p o (f.getD 3 "") face "v3" options) fun p o =>
        bindFace (addVertexFace p o (f.getD 0 "") face "v0" options) fun p o =>
          .ok p o []
      else .ok p o []

/-- `parseLine` of `obj.go` (706-796): full interpretation of one buffered
(already trimmed) line during the replay pass. -/
def parseLine (p : ObjParser) (o : Obj) (line : String)
    (options : ObjParserOptions) : LineOut :=
  if line = "" ∨ goFront line = '#' then .ok p o []
  else if goHasPfx "s " line then
    let smooth := goDrop line 2
    match smoothGroup smooth with
    | some s =>
      if (getGroup o p.currGroup).smooth ≠ s then
        let g := getGroup o p.currGroup
        let (o, gi) := o.newGroup g.name g.usemtl (o.indices.length : Int) s
        .ok { p with currGroup := gi } o []
      else .ok p o []
    | none =>
      .err p o [] ("parseLine: line=" ++ toString p.lineCount ++ " bad boolean smooth=[" ++
        smooth ++ "]: invalid syntax: line=[" ++ line ++ "]")
  else if goHasPfx "o " line ∨ goHasPfx "g " line then
    let name := goDrop line 2
    let g := getGroup o p.currGroup
    if g.name = "" then
      .ok p (setGroup o p.currGroup { g with name := name }) []
    else if g.name ≠ name then
      let (o, gi) := o.newGroup name g.usemtl (o.indices.length : Int) g.smooth
      .ok { p with currGroup := gi } o []
    else .ok p o []
  else if goHasPfx "usemtl " line then
    let usemtl := goDrop line 7
    let g := getGroup o p.currGroup
    if g.usemtl = "" then
      .ok p (setGroup o p.currGroup { g with usemtl := usemtl }) []
    else if g.usemtl ≠ usemtl then
      let o := if g.indexCount = 0 then
          setGroup o p.currGroup { g with indexCount := -1 }
        else o
      let (o, gi) := o.newGroup g.name usemtl (o.indices.length : Int) g.smooth
      .ok { p with currGroup := gi } o []
    else .ok p o []
  else if goHasPfx "mtllib " line then
    let mtllib := goDrop line 7
    let logs :=
      if o.mtllib ≠ "" then
        ["parseLine: line=" ++ toString p.lineCount ++ " mtllib redefinition old=" ++
          o.mtllib ++ " new=" ++ mtllib]
      else []
    .ok p { o with mtllib := mtllib } logs
  else if goHasPfx "f " line then
    let p := { p with faceLines := p.faceLines + 1 }
    parseFace p o (goDrop line 2) options
  else if goHasPfx "v " line then .ok { p with vertLines := p.vertLines + 1 } o []
  else if goHasPfx "vt " line then .ok { p with textLines := p.textLines + 1 } o []
  else if goHasPfx "vn " line then .ok { p with normLines := p.normLines + 1 } o []
  else
    .err p o [] ("parseLine " ++ toString p.lineCount ++ ": [" ++ line ++ "]: unexpected")

/-- Result of the replay pass: the Go runtime panic inside `addVertex`
aborts the whole decode. -/
inductive ScanOut where
  | ok (p : ObjParser) (o : Obj) (logs : List String)
  | crash
  deriving Repr, DecidableEq

/-- Loop body of `scanLines` (`obj.go` 573-582): replay the buffered lines;
every `parseLine` error is non-fatal, so the loop always continues. -/
def scanLoop (lines : List String) (p : ObjParser) (o : Obj) (logs : List String)
    (options : ObjParserOptions) : ScanOut :=
  match lines with
  | [] => .ok p o logs
  | l :: rest =>
    let p := { p with lineCount := p.lineCount + 1 }
    match parseLine p o l options with
    | .ok p o lg => scanLoop rest p o (logs ++ lg) options
    | .err p o lg m => scanLoop rest p o (logs ++ lg ++ ["scanLines: " ++ m]) options
    | .crash => .crash

/-- `scanLines` of `obj.go` (567-585): create the initial implicit group and
replay the buffered lines. -/
def scanLines (p : ObjParser) (o : Obj) (options : ObjParserOptions) : ScanOut :=
  let (o, gi) := o.newGroup "" "" 0 0
  let p := { p with currGroup := gi }
  scanLoop p.lineBuf { p with lineCount := 0 } o [] options

/-! ## Decode driver (`readObj`, `obj.go` 410-469) -/

/-- The "drop empty groups" loop of `readObj` (`obj.go` 441-451): a group
with a negative sentinel count is discarded; a kept group with fewer than 3
indices is reported. -/
def dropGroups (objName : String) : List Group → List Group × List String
  | [] => ([], [])
  | g :: rest =>
    let (ks, ls) := dropGroups objName rest
    if g.indexCount < 0 then (ks, ls)
    else if g.indexCount < 3 then
      (g :: ks, ("readObj: obj=" ++ objName ++ " BAD GROUP SIZE group=" ++ g.name ++
        " size=" ++ toString g.indexCount ++ " < 3") :: ls)
    else (g :: ks, ls)

/-- Statistics block of `readObj` (`obj.go` 455-466). -/
def statLogs (p : ObjParser) (o : Obj)
    (options : ObjParserOptions) : List String :=
  if options.logStats then
    ("readObj: INPUT lines=" ++ toString p.lineCount ++ " vertLines=" ++
       toString p.vertLines ++ " textLines=" ++ toString p.textLines ++ " normLines=" ++
       toString p.normLines ++ " faceLines=" ++ toString p.faceLines ++ " triangles=" ++
       toString p.triangles) ::
    ("readObj: STATS numberOfElements=" ++ toString p.indexCount ++ " indicesArraySize=" ++
       toString o.indices.length) ::
    ("readObj: STATS bigIndexFound=" ++ toString o.bigIndexFound ++ " groups=" ++
       toString o.groups.length) ::
    ("readObj: STATS textureCoordFound=" ++ toString o.textCoordFound ++
       " normalCoordFound=" ++ toString o.normCoordFound) ::
    ("readObj: STATS stride=" ++ toString o.strideSize ++ " textureOffset=" ++
       toString o.strideOffsetTexture ++ " normalOffset=" ++ toString o.strideOffsetNormal) ::
    (o.groups.map (fun g => "readObj: GROUP name=" ++ g.name ++ " first=" ++
       toString g.indexBegin ++ " count=" ++ toString g.indexCount))
  else []

/-- Result of a whole decode. -/
inductive DecodeOut where
  | ok (o : Obj) (logs : List String)
  | crash
  deriving Repr, DecidableEq

/-- Output step of `readObj` (`obj.go` 438-467): prune the groups, set up
the stride, and emit the statistics block. -/
def finishObj (objName : String) (logs1 : List String)
    (options : ObjParserOptions) : ScanOut → DecodeOut
  | .crash => .crash
  | .ok p o logs2 =>
    let dg := dropGroups objName o.groups
    let o := { o with groups := dg.1 }
    let o := setupStride o
    .ok o (logs1 ++ logs2 ++ dg.2 ++ statLogs p o options)

/-- `readObj` of `obj.go` (410-469): pass 1, counter reset, pass 2,
then the output step. -/
def readObj (objName : String) (lines : List String)
    (options : ObjParserOptions) : DecodeOut :=
  let r1 := readLines {} {} lines options
  let p := { r1.1 with faceLines := 0, vertLines := 0, textLines := 0, normLines := 0 }
  finishObj objName r1.2.2 options (scanLines p r1.2.1 options)

/-- `NewObjFromBuf` of `obj.go`: the successive `ReadString('\n')` chunks of
an in-memory buffer are exactly the newline-separated pieces of the text
(each chunk is trimmed by the line parsers, which removes the terminator). -/
def newObjFromBuf (objName : String) (buf : String)
    (options : ObjParserOptions) : DecodeOut :=
  readObj objName (goSplitNewline buf) options

/-- `NewObjFromVertex` of `obj.go` (350-363): build a Mesh directly from
vertex data, bypassing the parser (the Go error result is always `nil`). -/
def NewObjFromVertex (coord : List GoFloat) (indices : List Int) : Obj :=
  let o : Obj := {}
  let (o, gi) := o.newGroup "" "" 0 0
  let o := { o with coord := o.coord ++ coord }
  let o := indices.foldl (fun acc i => pushIndex gi acc i) o
  setupStride o

/-! ## Writer (`Obj.ToWriter`, `obj.go` 283-347) -/

/-- `Obj.NumberOfElements` of `obj.go` (all quantities non-negative for a
parser- or `NewObjFromVertex`-produced Mesh, so `Int` division agrees with
Go's truncated division). -/
def Obj.numberOfElements (o : Obj) : Int :=
  4 * (o.coord.length : Int) / o.strideSize

/-- Result of `ToWriter`: the produced text, the multiple-of-3 error, or a
Go runtime panic on an out-of-range buffer access. -/
inductive WriterOut where
  | ok (out : String)
  | err (msg : String)
  | crash
  deriving Repr, DecidableEq

/-- Whether a writer run returned the multiple-of-3 error. -/
def WriterOut.isErr : WriterOut → Bool
  | .err _ => true
  | _ => false

/-- One interleaved vertex record re-expanded as text (`obj.go` 294-308). -/
def writeStride (o : Obj) (s : Nat) : Option String :=
  let stride : Int := (s : Int) * o.strideSize / 4
  let v := stride + o.strideOffsetPosition / 4
  match goIndex o.coord v, goIndex o.coord (v + 1), goIndex o.coord (v + 2) with
  | some x, some y, some z =>
    let posLine := "v " ++ formatFloat6 x ++ " " ++ formatFloat6 y ++ " " ++
      formatFloat6 z ++ "\n"
    let texLine : Option String :=
      if o.textCoordFound then
        let t := stride + o.strideOffsetTexture / 4
        match goIndex o.coord t, goIndex o.coord (t + 1) with
        | some u, some w => some ("vt " ++ formatFloat6 u ++ " " ++ formatFloat6 w ++ "\n")
        | _, _ => none
      else some ""
    let normLine : Option String :=
      if o.normCoordFound then
        let n := stride + o.strideOffsetNormal / 4
        match goIndex o.coord n, goIndex o.coord (n + 1), goIndex o.coord (n + 2) with
        | some a, some b, some c =>
          some ("vn " ++ formatFloat6 a ++ " " ++ formatFloat6 b ++ " " ++
            formatFloat6 c ++ "\n")
        | _, _, _ => none
      else some ""
    match texLine, normLine with
    | some t, some n => some (posLine ++ t ++ n)
    | _, _ => none
  | _, _, _ => none

/-- One face-vertex reference as written by `ToWriter` (`obj.go` 326-340):
1-based unified index in the slash format selected by the found-flags. -/
def writeFaceRef (o : Obj) (f : Int) : Option String :=
  match goIndexInt o.indices f with
  | none => none
  | some ix =>
    let str := toString (ix + 1)
    some (if o.textCoordFound then
        if o.normCoordFound then " " ++ str ++ "/" ++ str ++ "/" ++ str
        else " " ++ str ++ "/" ++ str
      else
        if o.normCoordFound then " " ++ str ++ "//" ++ str
        else " " ++ str)

/-- One triangle line of a group (`obj.go` 323-343). -/
def writeTriangle (o : Obj) (s : Int) : Option String :=
  match writeFaceRef o s, writeFaceRef o (s + 1), writeFaceRef o (s + 2) with
  | some a, some b, some c => some ("f" ++ a ++ b ++ c ++ "\n")
  | _, _, _ => none

/-- All triangle lines of a group, three consecutive indices at a time. -/
def writeFaces (o : Obj) (g : Group) : Option String :=
  (List.range (g.indexCount.toNat / 3)).foldl
    (fun acc t =>
      match acc, writeTriangle o (g.indexBegin + 3 * (t : Int)) with
      | some s, some u => some (s ++ u)
      | _, _ => none)
    (some "")

/-- Group section of `ToWriter` (`obj.go` 311-344): header lines, the
multiple-of-3 check, then the triangle lines. -/
def writeGroups (o : Obj) : List Group → String → WriterOut
  | [], acc => .ok acc
  | g :: rest, acc =>
    let acc := acc ++
      (if g.name ≠ "" then "g " ++ g.name ++ "\n" else "") ++
      (if g.usemtl ≠ "" then "usemtl " ++ g.usemtl ++ "\n" else "") ++
      "s " ++ toString g.smooth ++ "\n"
    if g.indexCount % 3 ≠ 0 then
      .err ("group=" ++ g.name ++ " count=" ++ toString g.indexCount ++
        " must be a multiple of 3")
    else
      match writeFaces o g with
      | none => .crash
      | some s => writeGroups o rest (acc ++ s)

/-- `Obj.ToWriter` of `obj.go` (283-347). -/
def toWriter (o : Obj) : WriterOut :=
  let header := "# OBJ exported by gwob - https://github.com/udhos/gwob\n\n"
  let header := header ++ (if o.mtllib ≠ "" then "mtllib " ++ o.mtllib ++ "\n" else "")
  let strides := o.numberOfElements
  let vertexText : Option String :=
    (List.range strides.toNat).foldl
      (fun acc s =>
        match acc, writeStride o s with
        | some t, some u => some (t ++ u)
        | _, _ => none)
      (some "")
  match vertexText with
  | none => .crash
  | some vt => writeGroups o o.groups (header ++ vt)

/-! ## Helper lemmas -/

theorem data_append (a b : String) : (a ++ b).data = a.data ++ b.data := rfl

theorem isPrefixOf_append_self (l t : List Char) : l.isPrefixOf (l ++ t) = true := by
  induction l with
  | nil => cases t <;> rfl
  | cons c cs ih => simp [List.isPrefixOf, ih]

theorem goHasPfx_append (pre s : String) : goHasPfx pre (pre ++ s) = true := by
  unfold goHasPfx
  rw [data_append]
  exact isPrefixOf_append_self _ _

theorem str_ne_empty_of_append {pre : String} (name : String) (h : pre.data ≠ []) :
    pre ++ name ≠ "" := by
  intro he
  have h2 : (pre ++ name).data = "".data := congrArg String.data he
  rw [data_append] at h2
  exact h (List.append_eq_nil.mp h2).1

theorem isPrefixOf_ex {l m : List Char} (h : l.isPrefixOf m = true) :
    ∃ t, m = l ++ t := by
  induction l generalizing m with
  | nil => exact ⟨m, rfl⟩
  | cons a as ih =>
    cases m with
    | nil => simp [List.isPrefixOf] at h
    | cons b bs =>
      simp only [List.isPrefixOf, Bool.and_eq_true, beq_iff_eq] at h
      obtain ⟨t, ht⟩ := ih h.2
      exact ⟨t, by rw [h.1, ht]; rfl⟩

theorem goHasPfx_ex {pre s : String} (h : goHasPfx pre s = true) :
    ∃ t, s.data = pre.data ++ t := by
  exact isPrefixOf_ex h

theorem goHasPfx_false_of_ex {pre1 pre2 s : String} (h : goHasPfx pre1 s = true)
    (hne : ∀ t, pre2.data.isPrefixOf (pre1.data ++ t) = false) :
    goHasPfx pre2 s = false := by
  obtain ⟨t, ht⟩ := goHasPfx_ex h
  unfold goHasPfx
  rw [ht]
  exact hne t

theorem goHasPfx_false_of_head {pre s : String} {c : Char} (hpre : goFront s = c)
    (hc : c ≠ Char.ofNat 0)
    (hne : ∀ t, pre.data.isPrefixOf (c :: t) = false) :
    goHasPfx pre s = false := by
  unfold goFront at hpre
  unfold goHasPfx
  cases hd : s.data with
  | nil =>
    rw [hd] at hpre
    simp only [List.headD] at hpre
    exact absurd hpre.symm hc
  | cons b bs =>
    rw [hd] at hpre
    simp only [List.headD] at hpre
    rw [hpre]
    exact hne bs

theorem goHasPfx_false_of_empty {pre s : String} (hs : s = "") (hpre : pre.data ≠ []) :
    goHasPfx pre s = false := by
  subst hs
  unfold goHasPfx
  cases hd : pre.data with
  | nil => exact absurd hd hpre
  | cons b bs => rfl

/-! ## Shape lemmas for the `addVertex` pipeline -/

/-- The parser-state update `finishVertex` performs. -/
def insertKey (p : ObjParser) (k : String) : ObjParser :=
  { p with indexTable := p.indexTable ++ [(k, p.indexCount)],
           indexCount := p.indexCount + 1 }

/-- The group-list update `pushIndex` performs. -/
def bumpGroup (gs : List Group) (g : Nat) : List Group :=
  gs.set g { (gs.getD g default) with indexCount := (gs.getD g default).indexCount + 1 }

theorem pushIndex_indices (g : Nat) (o : Obj) (i : Int) :
    (pushIndex g o i).indices = o.indices ++ [i] := by
  unfold pushIndex
  split <;> rfl

theorem pushIndex_coord (g : Nat) (o : Obj) (i : Int) :
    (pushIndex g o i).coord = o.coord := by
  unfold pushIndex
  split <;> rfl

theorem pushIndex_groups (g : Nat) (o : Obj) (i : Int) :
    (pushIndex g o i).groups = bumpGroup o.groups g := by
  unfold pushIndex bumpGroup getGroup setGroup
  split <;> rfl

theorem pushIndex_mtllib (g : Nat) (o : Obj) (i : Int) :
    (pushIndex g o i).mtllib = o.mtllib := by
  unfold pushIndex
  split <;> rfl

theorem finishVertex_eq (p : ObjParser) (o : Obj) (k : String) :
    finishVertex p o k = .ok (insertKey p k) (pushIndex p.currGroup o p.indexCount) := rfl

/-- Width of a record appended by the normal block onward. -/
theorem normStep_ok {p : ObjParser} {o : Obj} {ni : Int} {nIndex k : String}
    {options : ObjParserOptions} {p' : ObjParser} {o' : Obj}
    (h : normStep p o ni nIndex k options = .ok p' o') :
    p' = insertKey p k ∧
    o'.indices = o.indices ++ [p.indexCount] ∧
    o'.coord.length = o.coord.length +
      (if ¬ options.ignoreNormals ∧ nIndex ≠ "" then 3 else 0) ∧
    o'.groups = bumpGroup o.groups p.currGroup ∧
    o'.mtllib = o.mtllib := by
  unfold normStep at h
  split at h
  · rename_i hcond
    split at h
    · rw [finishVertex_eq] at h
      obtain ⟨hp, ho⟩ := AVOut.ok.inj h
      subst hp
      subst ho
      rw [if_pos hcond]
      refine ⟨rfl, pushIndex_indices _ _ _, ?_, ?_, ?_⟩
      · rw [pushIndex_coord]
        simp
      · rw [pushIndex_groups]
      · rw [pushIndex_mtllib]
    · exact absurd h (by simp)
  · rename_i hcond
    rw [finishVertex_eq] at h
    obtain ⟨hp, ho⟩ := AVOut.ok.inj h
    subst hp
    subst ho
    rw [if_neg hcond]
    refine ⟨rfl, pushIndex_indices _ _ _, ?_, ?_, ?_⟩
    · rw [pushIndex_coord]
      omega
    · rw [pushIndex_groups]
    · rw [pushIndex_mtllib]

theorem texStep_ok {p : ObjParser} {o : Obj} {ind : List String} {ti : Int}
    {tIndex : String} {ht : Bool} {ni : Int} {nIndex k : String}
    {options : ObjParserOptions} {p' : ObjParser} {o' : Obj}
    (h : texStep p o ind ti tIndex ht ni nIndex k options = .ok p' o') :
    p' = insertKey p k ∧
    o'.indices = o.indices ++ [p.indexCount] ∧
    o'.coord.length = o.coord.length + (if tIndex ≠ "" ∧ ht = true then 2 else 0) +
      (if ¬ options.ignoreNormals ∧ nIndex ≠ "" then 3 else 0) ∧
    o'.groups = bumpGroup o.groups p.currGroup ∧
    o'.mtllib = o.mtllib := by
  unfold texStep at h
  split at h
  · rename_i hcond
    split at h
    · exact absurd h (by simp)
    · split at h
      · rename_i u v hm
        obtain ⟨h1, h2, h3, h4, h5⟩ := normStep_ok h
        rw [if_pos hcond]
        refine ⟨h1, by simpa using h2, ?_, by simpa using h4, by simpa using h5⟩
        rw [h3]
        simp only [List.length_append, List.length_cons, List.length_nil]
      · exact absurd h (by simp)
  · rename_i hcond
    obtain ⟨h1, h2, h3, h4, h5⟩ := normStep_ok h
    rw [if_neg hcond]
    exact ⟨h1, h2, by rw [h3]; omega, h4, h5⟩

theorem texStep_err {p : ObjParser} {o : Obj} {ind : List String} {ti : Int}
    {tIndex : String} {ht : Bool} {ni : Int} {nIndex k : String}
    {options : ObjParserOptions} {p' : ObjParser} {o' : Obj} {m : String}
    (h : texStep p o ind ti tIndex ht ni nIndex k options = .err p' o' m) :
    p' = p := by
  unfold texStep at h
  split at h
  · split at h
    · exact (AVOut.err.inj h).1.symm ▸ rfl
    · split at h
      · unfold normStep at h
        split at h
        · split at h
          · rw [finishVertex_eq] at h
            exact absurd h (by simp)
          · exact absurd h (by simp)
        · rw [finishVertex_eq] at h
          exact absurd h (by simp)
      · exact absurd h (by simp)
  · unfold normStep at h
    split at h
    · split at h
      · rw [finishVertex_eq] at h
        exact absurd h (by simp)
      · exact absurd h (by simp)
    · rw [finishVertex_eq] at h
      exact absurd h (by simp)

theorem addVertexKnown_ok {p : ObjParser} {o : Obj} {ind : List String}
    {vi ti : Int} {tIndex : String} {ni : Int} {nIndex : String} {ht : Bool}
    {k : String} {options : ObjParserOptions} {p' : ObjParser} {o' : Obj}
    (h : addVertexKnown p o ind vi ti tIndex ni nIndex ht k options = .ok p' o') :
    (∃ i, p.indexTable.lookup k = some i ∧ p' = p ∧ o' = pushIndex p.currGroup o i) ∨
    (p.indexTable.lookup k = none ∧ p' = insertKey p k ∧
      o'.indices = o.indices ++ [p.indexCount] ∧
      o'.coord.length = o.coord.length +
        (3 + (if tIndex ≠ "" ∧ ht = true then 2 else 0) +
         (if ¬ options.ignoreNormals ∧ nIndex ≠ "" then 3 else 0)) ∧
      o'.groups = bumpGroup o.groups p.currGroup ∧
      o'.mtllib = o.mtllib) := by
  unfold addVertexKnown at h
  split at h
  · rename_i i hl
    obtain ⟨hp, ho⟩ := AVOut.ok.inj h
    exact Or.inl ⟨i, hl, hp.symm, ho.symm⟩
  · rename_i hl
    split at h
    · exact absurd h (by simp)
    · split at h
      · rename_i x y z hm
        obtain ⟨h1, h2, h3, h4, h5⟩ := texStep_ok h
        refine Or.inr ⟨hl, h1, by simpa using h2, ?_, by simpa using h4, by simpa using h5⟩
        rw [h3]
        simp only [List.length_append, List.length_cons, List.length_nil]
        omega
      · exact absurd h (by simp)

theorem addVertexKnown_err {p : ObjParser} {o : Obj} {ind : List String}
    {vi ti : Int} {tIndex : String} {ni : Int} {nIndex : String} {ht : Bool}
    {k : String} {options : ObjParserOptions} {p' : ObjParser} {o' : Obj} {m : String}
    (h : addVertexKnown p o ind vi ti tIndex ni nIndex ht k options = .err p' o' m) :
    p' = p := by
  unfold addVertexKnown at h
  split at h
  · exact absurd h (by simp)
  · split at h
    · exact ((AVOut.err.inj h).1).symm
    · split at h
      · exact texStep_err h
      · exact absurd h (by simp)

theorem addVertex_ok {p : ObjParser} {o : Obj} {r : String}
    {options : ObjParserOptions} {p' : ObjParser} {o' : Obj}
    (h : addVertex p o r options = .ok p' o') :
    ∃ vi ti tIndex ni nIndex ht k,
      resolveRef p r = .ok vi ti tIndex ni nIndex ht k ∧
      ((∃ i, p.indexTable.lookup k = some i ∧ p' = p ∧ o' = pushIndex p.currGroup o i) ∨
       (p.indexTable.lookup k = none ∧ p' = insertKey p k ∧
        o'.indices = o.indices ++ [p.indexCount] ∧
        o'.coord.length = o.coord.length +
          (3 + (if tIndex ≠ "" ∧ ht = true then 2 else 0) +
           (if ¬ options.ignoreNormals ∧ nIndex ≠ "" then 3 else 0)) ∧
        o'.groups = bumpGroup o.groups p.currGroup ∧
        o'.mtllib = o.mtllib)) := by
  unfold addVertex at h
  split at h
  · exact absurd h (by simp)
  · rename_i vi ti tIndex ni nIndex ht k hres
    exact ⟨vi, ti, tIndex, ni, nIndex, ht, k, hres, addVertexKnown_ok h⟩

theorem addVertex_err {p : ObjParser} {o : Obj} {r : String}
    {options : ObjParserOptions} {p' : ObjParser} {o' : Obj} {m : String}
    (h : addVertex p o r options = .err p' o' m) :
    p' = p := by
  unfold addVertex at h
  split at h
  · exact ((AVOut.err.inj h).1).symm
  · exact addVertexKnown_err h

/-- Deduplication path: a reference whose composite key is already mapped
only pushes the recorded unified index. -/
theorem addVertex_of_lookup {p : ObjParser} {r : String} {vi ti : Int}
    {tIndex : String} {ni : Int} {nIndex : String} {ht : Bool} {k : String} {i : Int}
    (o : Obj) (options : ObjParserOptions)
    (hres : resolveRef p r = .ok vi ti tIndex ni nIndex ht k)
    (hl : p.indexTable.lookup k = some i) :
    addVertex p o r options = .ok p (pushIndex p.currGroup o i) := by
  simp only [addVertex, hres, addVertexKnown, hl]

/-- `resolveRef` reads only the line number and the three running
directive counters of the parser state. -/
theorem resolveRef_congr {p q : ObjParser} (r : String)
    (h1 : q.vertLines = p.vertLines) (h2 : q.textLines = p.textLines)
    (h3 : q.normLines = p.normLines) (h4 : q.lineCount = p.lineCount) :
    resolveRef q r = resolveRef p r := by
  unfold resolveRef
  rw [h1, h2, h3, h4]

/-- The parser-state part of a successful `addVertex` preserves everything
except the index table and the unified-vertex counter. -/
theorem insertKey_fields (p : ObjParser) (k : String) :
    (insertKey p k).vertLines = p.vertLines ∧
    (insertKey p k).textLines = p.textLines ∧
    (insertKey p k).normLines = p.normLines ∧
    (insertKey p k).lineCount = p.lineCount ∧
    (insertKey p k).currGroup = p.currGroup ∧
    (insertKey p k).vertCoord = p.vertCoord ∧
    (insertKey p k).textCoord = p.textCoord ∧
    (insertKey p k).normCoord = p.normCoord ∧
    (insertKey p k).lineBuf = p.lineBuf ∧
    (insertKey p k).faceLines = p.faceLines ∧
    (insertKey p k).triangles = p.triangles :=
  ⟨rfl, rfl, rfl, rfl, rfl, rfl, rfl, rfl, rfl, rfl, rfl⟩

theorem setupStride_spec (o : Obj) :
    (setupStride o).strideOffsetPosition = 0 ∧
    (setupStride o).strideSize = 12 + (if (setupStride o).textCoordFound then 8 else 0) +
      (if (setupStride o).normCoordFound then 12 else 0) ∧
    (setupStride o).strideOffsetTexture =
      (if (setupStride o).textCoordFound then 12 else 0) ∧
    (setupStride o).strideOffsetNormal =
      (if (setupStride o).normCoordFound then
        (if (setupStride o).textCoordFound then 20 else 12) else 0) := by
  cases h1 : o.textCoordFound <;> cases h2 : o.normCoordFound <;>
    simp [setupStride, h1, h2]

/-! ## Face-step lemmas -/

theorem bindFace_ok {r : LineOut} {f : ObjParser → Obj → LineOut}
    {p' : ObjParser} {o' : Obj} {lg : List String}
    (h : bindFace r f = .ok p' o' lg) :
    ∃ p₁ o₁ lg₁, r = .ok p₁ o₁ lg₁ ∧ f p₁ o₁ = .ok p' o' lg := by
  unfold bindFace at h
  split at h
  · rename_i p₁ o₁ lg₁
    exact ⟨p₁, o₁, lg₁, rfl, h⟩
  · rename_i hne
    subst h
    exact absurd rfl (fun hc => hne p' o' lg hc)

theorem bindFace_err {r : LineOut} {f : ObjParser → Obj → LineOut}
    {p' : ObjParser} {o' : Obj} {lg : List String} {m : String}
    (h : bindFace r f = .err p' o' lg m) :
    r = .err p' o' lg m ∨
    ∃ p₁ o₁ lg₁, r = .ok p₁ o₁ lg₁ ∧ f p₁ o₁ = .err p' o' lg m := by
  unfold bindFace at h
  split at h
  · rename_i p₁ o₁ lg₁
    exact Or.inr ⟨p₁, o₁, lg₁, rfl, h⟩
  · exact Or.inl h

theorem addVertexFace_ok {p : ObjParser} {o : Obj} {ref face label : String}
    {options : ObjParserOptions} {p' : ObjParser} {o' : Obj} {lg : List String}
    (h : addVertexFace p o ref face label options = .ok p' o' lg) :
    addVertex p o ref options = .ok p' o' ∧ lg = [] := by
  unfold addVertexFace at h
  split at h
  · exact absurd h (by simp)
  · exact absurd h (by simp)
  · rename_i p₁ o₁ heq
    obtain ⟨h1, h2, h3⟩ := LineOut.ok.inj h
    subst h1
    subst h2
    exact ⟨heq, h3.symm⟩

theorem addVertexFace_err {p : ObjParser} {o : Obj} {ref face label : String}
    {options : ObjParserOptions} {p' : ObjParser} {o' : Obj} {lg : List String}
    {m : String}
    (h : addVertexFace p o ref face label options = .err p' o' lg m) :
    ∃ m₁, addVertex p o ref options = .err p' o' m₁ := by
  unfold addVertexFace at h
  split at h
  · exact absurd h (by simp)
  · rename_i p₁ o₁ m₁ heq
    obtain ⟨h1, h2, h3, h4⟩ := LineOut.err.inj h
    subst h1
    subst h2
    exact ⟨m₁, heq⟩
  · exact absurd h (by simp)

theorem addVertex_counters_ok {p : ObjParser} {o : Obj} {r : String}
    {options : ObjParserOptions} {p' : ObjParser} {o' : Obj}
    (h : addVertex p o r options = .ok p' o') :
    p'.vertLines = p.vertLines ∧ p'.textLines = p.textLines ∧
    p'.normLines = p.normLines ∧ p'.lineCount = p.lineCount ∧
    p'.currGroup = p.currGroup ∧ p'.vertCoord = p.vertCoord ∧
    p'.textCoord = p.textCoord ∧ p'.normCoord = p.normCoord ∧
    p'.faceLines = p.faceLines ∧ p'.triangles = p.triangles := by
  obtain ⟨vi, ti, tI, ni, nI, ht, k, hres, hcase⟩ := addVertex_ok h
  rcases hcase with ⟨i, hl, hp, ho⟩ | ⟨hl, hp, hrest⟩ <;> subst hp <;>
    exact ⟨rfl, rfl, rfl, rfl, rfl, rfl, rfl, rfl, rfl, rfl⟩

theorem addVertex_counters_err {p : ObjParser} {o : Obj} {r : String}
    {options : ObjParserOptions} {p' : ObjParser} {o' : Obj} {m : String}
    (h : addVertex p o r options = .err p' o' m) :
    p' = p :=
  addVertex_err h

theorem parseFace_counters {p : ObjParser} {o : Obj} {face : String}
    {options : ObjParserOptions} :
    (∀ p' o' lg, parseFace p o face options = .ok p' o' lg →
      p'.vertLines = p.vertLines ∧ p'.textLines = p.textLines ∧
      p'.normLines = p.normLines) ∧
    (∀ p' o' lg m, parseFace p o face options = .err p' o' lg m →
      p'.vertLines = p.vertLines ∧ p'.textLines = p.textLines ∧
      p'.normLines = p.normLines) := by
  constructor
  · intro p' o' lg h
    simp only [parseFace] at h
    split at h
    · exact absurd h (by simp)
    · obtain ⟨p1, o1, lg1, hr1, h⟩ := bindFace_ok h
      obtain ⟨ha1, -⟩ := addVertexFace_ok hr1
      obtain ⟨c1, c2, c3, -⟩ := addVertex_counters_ok ha1
      obtain ⟨p2, o2, lg2, hr2, h⟩ := bindFace_ok h
      obtain ⟨ha2, -⟩ := addVertexFace_ok hr2
      obtain ⟨d1, d2, d3, -⟩ := addVertex_counters_ok ha2
      obtain ⟨p3, o3, lg3, hr3, h⟩ := bindFace_ok h
      obtain ⟨ha3, -⟩ := addVertexFace_ok hr3
      obtain ⟨e1, e2, e3, -⟩ := addVertex_counters_ok ha3
      split at h
      · obtain ⟨p4, o4, lg4, hr4, h⟩ := bindFace_ok h
        obtain ⟨ha4, -⟩ := addVertexFace_ok hr4
        obtain ⟨f1, f2, f3, -⟩ := addVertex_counters_ok ha4
        obtain ⟨p5, o5, lg5, hr5, h⟩ := bindFace_ok h
        obtain ⟨ha5, -⟩ := addVertexFace_ok hr5
        obtain ⟨g1, g2, g3, -⟩ := addVertex_counters_ok ha5
        obtain ⟨p6, o6, lg6, hr6, h⟩ := bindFace_ok h
        obtain ⟨ha6, -⟩ := addVertexFace_ok hr6
        obtain ⟨i1, i2, i3, -⟩ := addVertex_counters_ok ha6
        obtain ⟨hp, ho, -⟩ := LineOut.ok.inj h
        subst hp
        simp_all
      · obtain ⟨hp, ho, -⟩ := LineOut.ok.inj h
        subst hp
        simp_all
  · intro p' o' lg m h
    simp only [parseFace] at h
    split at h
    · obtain ⟨hp, -, -, -⟩ := LineOut.err.inj h
      subst hp
      exact ⟨rfl, rfl, rfl⟩
    · rcases bindFace_err h with he | ⟨p1, o1, lg1, hr1, h⟩
      · obtain ⟨m1, ha1⟩ := addVertexFace_err he
        rw [addVertex_counters_err ha1]
        exact ⟨rfl, rfl, rfl⟩
      · obtain ⟨ha1, -⟩ := addVertexFace_ok hr1
        obtain ⟨c1, c2, c3, -⟩ := addVertex_counters_ok ha1
        rcases bindFace_err h with he | ⟨p2, o2, lg2, hr2, h⟩
        · obtain ⟨m2, ha2⟩ := addVertexFace_err he
          rw [addVertex_counters_err ha2]
          simp_all
        · obtain ⟨ha2, -⟩ := addVertexFace_ok hr2
          obtain ⟨d1, d2, d3, -⟩ := addVertex_counters_ok ha2
          rcases bindFace_err h with he | ⟨p3, o3, lg3, hr3, h⟩
          · obtain ⟨m3, ha3⟩ := addVertexFace_err he
            rw [addVertex_counters_err ha3]
            simp_all
          · obtain ⟨ha3, -⟩ := addVertexFace_ok hr3
            obtain ⟨e1, e2, e3, -⟩ := addVertex_counters_ok ha3
            split at h
            · rcases bindFace_err h with he | ⟨p4, o4, lg4, hr4, h⟩
              · obtain ⟨m4, ha4⟩ := addVertexFace_err he
                rw [addVertex_counters_err ha4]
                simp_all
              · obtain ⟨ha4, -⟩ := addVertexFace_ok hr4
                obtain ⟨f1, f2, f3, -⟩ := addVertex_counters_ok ha4
                rcases bindFace_err h with he | ⟨p5, o5, lg5, hr5, h⟩
                · obtain ⟨m5, ha5⟩ := addVertexFace_err he
                  rw [addVertex_counters_err ha5]
                  simp_all
                · obtain ⟨ha5, -⟩ := addVertexFace_ok hr5
                  obtain ⟨g1, g2, g3, -⟩ := addVertex_counters_ok ha5
                  rcases bindFace_err h with he | ⟨p6, o6, lg6, hr6, h⟩
                  · obtain ⟨m6, ha6⟩ := addVertexFace_err he
                    rw [addVertex_counters_err ha6]
                    simp_all
                  · obtain ⟨ha6, -⟩ := addVertexFace_ok hr6
                    exact absurd h (by simp)
            · exact absurd h (by simp)

/-! ## Line-level counter lemmas -/

theorem no_vvtvn_of_empty_or_comment {line : String}
    (hcond : line = "" ∨ goFront line = '#') :
    goHasPfx "v " line = false ∧ goHasPfx "vt " line = false ∧
    goHasPfx "vn " line = false := by
  rcases hcond with he | hh
  · exact ⟨goHasPfx_false_of_empty he (by decide),
      goHasPfx_false_of_empty he (by decide),
      goHasPfx_false_of_empty he (by decide)⟩
  · exact ⟨goHasPfx_false_of_head hh (by decide) (fun t => rfl),
      goHasPfx_false_of_head hh (by decide) (fun t => rfl),
      goHasPfx_false_of_head hh (by decide) (fun t => rfl)⟩

theorem no_vvtvn_of_pfx {pre line : String} (h : goHasPfx pre line = true)
    (h1 : ∀ t, "v ".data.isPrefixOf (pre.data ++ t) = false)
    (h2 : ∀ t, "vt ".data.isPrefixOf (pre.data ++ t) = false)
    (h3 : ∀ t, "vn ".data.isPrefixOf (pre.data ++ t) = false) :
    goHasPfx "v " line = false ∧ goHasPfx "vt " line = false ∧
    goHasPfx "vn " line = false :=
  ⟨goHasPfx_false_of_ex h h1, goHasPfx_false_of_ex h h2, goHasPfx_false_of_ex h h3⟩

theorem if_one_zero_true {c : Bool} (h : c = true) :
    (if c = true then (1 : Int) else 0) = 1 := by
  rw [h]
  rfl

theorem if_one_zero_false {c : Bool} (h : c = false) :
    (if c = true then (1 : Int) else 0) = 0 := by
  rw [h]
  rfl

set_option maxHeartbeats 1600000 in
/-- How one replayed line moves the three running directive-line counters:
a `v `/`vt `/`vn ` line increments exactly its own counter; every other
line, including an erroring one, leaves all three unchanged. -/
theorem parseLine_counters (p : ObjParser) (o : Obj) (line : String)
    (options : ObjParserOptions) :
    (∀ p' o' lg, parseLine p o line options = .ok p' o' lg →
      p'.vertLines = p.vertLines + (if goHasPfx "v " line then 1 else 0) ∧
      p'.textLines = p.textLines + (if goHasPfx "vt " line then 1 else 0) ∧
      p'.normLines = p.normLines + (if goHasPfx "vn " line then 1 else 0)) ∧
    (∀ p' o' lg m, parseLine p o line options = .err p' o' lg m →
      p'.vertLines = p.vertLines ∧ p'.textLines = p.textLines ∧
      p'.normLines = p.normLines ∧ goHasPfx "v " line = false ∧
      goHasPfx "vt " line = false ∧ goHasPfx "vn " line = false) := by
  constructor
  · intro p' o' lg h
    unfold parseLine at h
    dsimp only [Obj.newGroup] at h
    split at h
    · rename_i hcond
      obtain ⟨f1, f2, f3⟩ := no_vvtvn_of_empty_or_comment hcond
      obtain ⟨hp, -, -⟩ := LineOut.ok.inj h
      subst hp
      exact ⟨by rw [if_one_zero_false f1, add_zero],
        by rw [if_one_zero_false f2, add_zero],
        by rw [if_one_zero_false f3, add_zero]⟩
    · split at h
      · rename_i hcond
        obtain ⟨f1, f2, f3⟩ := no_vvtvn_of_pfx hcond
          (fun t => rfl) (fun t => rfl) (fun t => rfl)
        split at h
        · split at h <;>
            (obtain ⟨hp, -, -⟩ := LineOut.ok.inj h; subst hp;
             exact ⟨by rw [if_one_zero_false f1, add_zero],
               by rw [if_one_zero_false f2, add_zero],
               by rw [if_one_zero_false f3, add_zero]⟩)
        · exact absurd h (by simp)
      · split at h
        · rename_i hcond
          have hf : goHasPfx "v " line = false ∧
              goHasPfx "vt " line = false ∧ goHasPfx "vn " line = false := by
            rcases hcond with hg | hg
            · exact no_vvtvn_of_pfx hg (fun t => rfl) (fun t => rfl) (fun t => rfl)
            · exact no_vvtvn_of_pfx hg (fun t => rfl) (fun t => rfl) (fun t => rfl)
          obtain ⟨f1, f2, f3⟩ := hf
          split at h <;> [skip; split at h] <;>
            (obtain ⟨hp, -, -⟩ := LineOut.ok.inj h; subst hp;
             exact ⟨by rw [if_one_zero_false f1, add_zero],
               by rw [if_one_zero_false f2, add_zero],
               by rw [if_one_zero_false f3, add_zero]⟩)
        · split at h
          · rename_i hcond
            obtain ⟨f1, f2, f3⟩ := no_vvtvn_of_pfx hcond
              (fun t => rfl) (fun t => rfl) (fun t => rfl)
            split at h <;> [skip; split at h] <;>
              (obtain ⟨hp, -, -⟩ := LineOut.ok.inj h; subst hp;
               exact ⟨by rw [if_one_zero_false f1, add_zero],
                 by rw [if_one_zero_false f2, add_zero],
                 by rw [if_one_zero_false f3, add_zero]⟩)
          · split at h
            · rename_i hcond
              obtain ⟨f1, f2, f3⟩ := no_vvtvn_of_pfx hcond
                (fun t => rfl) (fun t => rfl) (fun t => rfl)
              obtain ⟨hp, -, -⟩ := LineOut.ok.inj h
              subst hp
              exact ⟨by rw [if_one_zero_false f1, add_zero],
                by rw [if_one_zero_false f2, add_zero],
                by rw [if_one_zero_false f3, add_zero]⟩
            · split at h
              · rename_i hcond
                obtain ⟨f1, f2, f3⟩ := no_vvtvn_of_pfx hcond
                  (fun t => rfl) (fun t => rfl) (fun t => rfl)
                obtain ⟨c1, c2, c3⟩ := (parseFace_counters).1 _ _ _ h
                exact ⟨by rw [c1, if_one_zero_false f1, add_zero],
                  by rw [c2, if_one_zero_false f2, add_zero],
                  by rw [c3, if_one_zero_false f3, add_zero]⟩
              · split at h
                · rename_i hcond
                  have f2 : goHasPfx "vt " line = false :=
                    goHasPfx_false_of_ex hcond (fun t => rfl)
                  have f3 : goHasPfx "vn " line = false :=
                    goHasPfx_false_of_ex hcond (fun t => rfl)
                  obtain ⟨hp, -, -⟩ := LineOut.ok.inj h
                  subst hp
                  exact ⟨by rw [if_one_zero_true hcond],
                    by rw [if_one_zero_false f2, add_zero],
                    by rw [if_one_zero_false f3, add_zero]⟩
                · split at h
                  · rename_i hnv hcond
                    have f3 : goHasPfx "vn " line = false :=
                      goHasPfx_false_of_ex hcond (fun t => rfl)
                    obtain ⟨hp, -, -⟩ := LineOut.ok.inj h
                    subst hp
                    simp only [Bool.not_eq_true] at hnv
                    exact ⟨by rw [if_one_zero_false hnv, add_zero],
                      by rw [if_one_zero_true hcond],
                      by rw [if_one_zero_false f3, add_zero]⟩
                  · split at h
                    · rename_i hnv hnvt hcond
                      obtain ⟨hp, -, -⟩ := LineOut.ok.inj h
                      subst hp
                      simp only [Bool.not_eq_true] at hnv hnvt
                      exact ⟨by rw [if_one_zero_false hnv, add_zero],
                        by rw [if_one_zero_false hnvt, add_zero],
                        by rw [if_one_zero_true hcond]⟩
                    · exact absurd h (by simp)
  · intro p' o' lg m h
    unfold parseLine at h
    dsimp only [Obj.newGroup] at h
    split at h
    · exact absurd h (by simp)
    · split at h
      · rename_i hcond
        obtain ⟨f1, f2, f3⟩ := no_vvtvn_of_pfx hcond
          (fun t => rfl) (fun t => rfl) (fun t => rfl)
        split at h
        · split at h <;> exact absurd h (by simp)
        · obtain ⟨hp, -, -, -⟩ := LineOut.err.inj h
          subst hp
          exact ⟨rfl, rfl, rfl, f1, f2, f3⟩
      · split at h
        · split at h <;> [skip; split at h] <;> exact absurd h (by simp)
        · split at h
          · split at h <;> [skip; split at h] <;> exact absurd h (by simp)
          · split at h
            · exact absurd h (by simp)
            · split at h
              · rename_i hcond
                obtain ⟨f1, f2, f3⟩ := no_vvtvn_of_pfx hcond
                  (fun t => rfl) (fun t => rfl) (fun t => rfl)
                obtain ⟨c1, c2, c3⟩ := (parseFace_counters).2 _ _ _ _ h
                exact ⟨c1, c2, c3, f1, f2, f3⟩
              · split at h
                · exact absurd h (by simp)
                · split at h
                  · exact absurd h (by simp)
                  · split at h
                    · exact absurd h (by simp)
                    · rename_i hnv hnvt hnvn
                      obtain ⟨hp, -, -, -⟩ := LineOut.err.inj h
                      subst hp
                      simp only [Bool.not_eq_true] at hnv hnvt hnvn
                      exact ⟨rfl, rfl, rfl, hnv, hnvt, hnvn⟩

/-- The replay-pass fold: after any prefix of the buffered lines, each
running counter equals its start value plus the number of same-kind
directive lines scanned so far. -/
theorem scanLoop_counters (lines : List String) :
    ∀ (p : ObjParser) (o : Obj) (logs : List String) (options : ObjParserOptions)
      (p' : ObjParser) (o' : Obj) (lg : List String),
      scanLoop lines p o logs options = .ok p' o' lg →
      p'.vertLines = p.vertLines + ((lines.countP (fun l => goHasPfx "v " l)) : Int) ∧
      p'.textLines = p.textLines + ((lines.countP (fun l => goHasPfx "vt " l)) : Int) ∧
      p'.normLines = p.normLines + ((lines.countP (fun l => goHasPfx "vn " l)) : Int) := by
  induction lines with
  | nil =>
    intro p o logs options p' o' lg h
    unfold scanLoop at h
    obtain ⟨hp, -, -⟩ := ScanOut.ok.inj h
    subst hp
    simp
  | cons l rest ih =>
    intro p o logs options p' o' lg h
    unfold scanLoop at h
    dsimp only at h
    split at h
    · rename_i p2 o2 lg2 heq
      obtain ⟨a1, a2, a3⟩ := (parseLine_counters _ _ _ _).1 _ _ _ heq
      obtain ⟨b1, b2, b3⟩ := ih _ _ _ _ _ _ _ h
      have e1 : ({ p with lineCount := p.lineCount + 1 } : ObjParser).vertLines =
        p.vertLines := rfl
      have e2 : ({ p with lineCount := p.lineCount + 1 } : ObjParser).textLines =
        p.textLines := rfl
      have e3 : ({ p with lineCount := p.lineCount + 1 } : ObjParser).normLines =
        p.normLines := rfl
      rw [e1] at a1
      rw [e2] at a2
      rw [e3] at a3
      refine ⟨?_, ?_, ?_⟩
      · rw [b1, a1, List.countP_cons]
        cases hvl : goHasPfx "v " l <;> simp [hvl] <;> omega
      · rw [b2, a2, List.countP_cons]
        cases hvl : goHasPfx "vt " l <;> simp [hvl] <;> omega
      · rw [b3, a3, List.countP_cons]
        cases hvl : goHasPfx "vn " l <;> simp [hvl] <;> omega
    · rename_i p2 o2 lg2 m heq
      obtain ⟨a1, a2, a3, f1, f2, f3⟩ := (parseLine_counters _ _ _ _).2 _ _ _ _ heq
      obtain ⟨b1, b2, b3⟩ := ih _ _ _ _ _ _ _ h
      have e1 : ({ p with lineCount := p.lineCount + 1 } : ObjParser).vertLines =
        p.vertLines := rfl
      have e2 : ({ p with lineCount := p.lineCount + 1 } : ObjParser).textLines =
        p.textLines := rfl
      have e3 : ({ p with lineCount := p.lineCount + 1 } : ObjParser).normLines =
        p.normLines := rfl
      rw [e1] at a1
      rw [e2] at a2
      rw [e3] at a3
      refine ⟨?_, ?_, ?_⟩
      · rw [b1, a1, List.countP_cons, f1]
        simp
      · rw [b2, a2, List.countP_cons, f2]
        simp
      · rw [b3, a3, List.countP_cons, f3]
        simp
    · exact absurd h (by simp)

/-- For a pure-position reference (one slash-field), `addVertex` resolves
the index with `solveRelativeIndex` against the running `vertLines` count. -/
theorem resolveRef_position (p : ObjParser) (index s0 : String) (v : Int)
    (hsplit : splitSlash (replaceDoubleSlash index) = [s0])
    (hv : parseIntBase10 s0 = some v) :
    ∃ k, resolveRef p index = .ok (solveRelativeIndex v p.vertLines) 0 "" 0 "" false k := by
  refine ⟨toString (solveRelativeIndex v p.vertLines) ++ "/" ++ "" ++ "/" ++ "", ?_⟩
  simp only [resolveRef, hsplit, hv]
  norm_num
  rw [hv]

/-! ## C8: relative index resolution against running counters -/

/-- C8: a negative component index resolves to `runningCount + index` and a
positive one to `index - 1` (`solveRelativeIndex`); the running counts used
are the numbers of same-kind directive lines seen *so far* during the
replay fold (they grow line by line, so at any prefix they are the counts
of that prefix, not the final totals); and a face reference's position
component is resolved by `solveRelativeIndex` against the running
`vertLines` counter of the parser state at that moment. -/
theorem relative_index_resolution :
    (∀ index size : Int,
      (index < 0 → solveRelativeIndex index size = size + index) ∧
      (0 < index → solveRelativeIndex index size = index - 1)) ∧
    (∀ (lines : List String) (p : ObjParser) (o : Obj) (logs : List String)
       (options : ObjParserOptions) (p' : ObjParser) (o' : Obj) (lg : List String),
      scanLoop lines p o logs options = .ok p' o' lg →
      p'.vertLines = p.vertLines + ((lines.countP (fun l => goHasPfx "v " l)) : Int) ∧
      p'.textLines = p.textLines + ((lines.countP (fun l => goHasPfx "vt " l)) : Int) ∧
      p'.normLines = p.normLines + ((lines.countP (fun l => goHasPfx "vn " l)) : Int)) ∧
    (∀ (p : ObjParser) (index s0 : String) (v : Int),
      splitSlash (replaceDoubleSlash index) = [s0] →
      parseIntBase10 s0 = some v →
      ∃ k, resolveRef p index =
        .ok (solveRelativeIndex v p.vertLines) 0 "" 0 "" false k) := by
  refine ⟨?_, ?_, ?_⟩
  · intro index size
    constructor
    · intro h
      unfold solveRelativeIndex
      rw [if_neg (by omega)]
    · intro h
      unfold solveRelativeIndex
      rw [if_pos (by omega)]
  · exact fun lines p o logs options p' o' lg h =>
      scanLoop_counters lines p o logs options p' o' lg h
  · exact fun p index s0 v h1 h2 => resolveRef_position p index s0 v h1 h2

/-- The parser state left by replaying the single line `v 1 2 3`
(witness plumbing). -/
def c8p : ObjParser :=
  match scanLoop ["v 1 2 3"] {} {} [] {} with
  | .ok p _ _ => p
  | .crash => default

/-- The Mesh left by that same replay (witness plumbing). -/
def c8o : Obj :=
  match scanLoop ["v 1 2 3"] {} {} [] {} with
  | .ok _ o _ => o
  | .crash => default

/-- The diagnostics of that same replay (witness plumbing). -/
def c8lg : List String :=
  match scanLoop ["v 1 2 3"] {} {} [] {} with
  | .ok _ _ lg => lg
  | .crash => []

/-- Witness for `relative_index_resolution`: the spec's own example
`f -3 -2 -1` at running position 6 (index `-3` resolves to 0-based 3), a
positive index, one replayed `v ` line, and the concrete resolution of the
reference `-3`. -/
theorem relative_index_resolution_witness :
    solveRelativeIndex (-3) 6 = 6 + (-3) ∧
    solveRelativeIndex 4 6 = 4 - 1 ∧
    (scanLoop ["v 1 2 3"] {} {} [] {} = .ok c8p c8o c8lg ∧
      c8p.vertLines = ({} : ObjParser).vertLines +
        ((List.countP (fun l => goHasPfx "v " l) ["v 1 2 3"] : Nat) : Int)) ∧
    (∃ k, resolveRef { vertLines := 6 } "-3" =
      .ok (solveRelativeIndex (-3) ({ vertLines := 6 } : ObjParser).vertLines)
        0 "" 0 "" false k) := by
  have hrun : scanLoop ["v 1 2 3"] {} {} [] {} = .ok c8p c8o c8lg := by decide
  refine ⟨(relative_index_resolution.1 (-3) 6).1 (by decide),
    (relative_index_resolution.1 4 6).2 (by decide),
    ⟨hrun, (relative_index_resolution.2.1 ["v 1 2 3"] {} {} [] {} c8p c8o c8lg hrun).1⟩,
    relative_index_resolution.2.2 { vertLines := 6 } "-3" "-3" (-3)
      (by decide) (by decide)⟩

/-! ## Lookup and dedup-table lemmas -/

theorem lookup_append_left {t l : List (String × Int)} {k : String} {i : Int}
    (h : t.lookup k = some i) : (t ++ l).lookup k = some i := by
  induction t with
  | nil => simp [List.lookup] at h
  | cons a rest ih =>
    rw [List.cons_append]
    cases a with
    | mk k' v' =>
      simp only [List.lookup] at h ⊢
      cases hk : (k == k') with
      | true => rw [hk] at h; exact h
      | false => rw [hk] at h; exact ih h

theorem lookup_append_right {t : List (String × Int)} {k : String} {v : Int}
    (h : t.lookup k = none) : (t ++ [(k, v)]).lookup k = some v := by
  induction t with
  | nil => simp [List.lookup]
  | cons a rest ih =>
    rw [List.cons_append]
    cases a with
    | mk k' v' =>
      simp only [List.lookup] at h ⊢
      cases hk : (k == k') with
      | true => rw [hk] at h; exact absurd h (by simp)
      | false => rw [hk] at h; exact ih h

/-- After a successful `addVertex` that pushed unified index `i`, the
composite key of the reference is mapped to `i`, the running counters are
unchanged, and every previously recorded mapping survives. -/
theorem addVertex_key_after {p : ObjParser} {o : Obj} {r : String}
    {options : ObjParserOptions} {p' : ObjParser} {o' : Obj} {i : Int}
    (h : addVertex p o r options = .ok p' o')
    (hi : o'.indices = o.indices ++ [i]) :
    ∃ vi ti tIndex ni nIndex ht k,
      resolveRef p r = .ok vi ti tIndex ni nIndex ht k ∧
      p'.indexTable.lookup k = some i ∧
      (p'.vertLines = p.vertLines ∧ p'.textLines = p.textLines ∧
       p'.normLines = p.normLines ∧ p'.lineCount = p.lineCount ∧
       p'.currGroup = p.currGroup) ∧
      (∀ k' i', p.indexTable.lookup k' = some i' →
        p'.indexTable.lookup k' = some i') := by
  obtain ⟨vi, ti, tI, ni, nI, ht, k, hres, hcase⟩ := addVertex_ok h
  refine ⟨vi, ti, tI, ni, nI, ht, k, hres, ?_⟩
  rcases hcase with ⟨j, hl, hp, ho⟩ | ⟨hl, hp, hind, -⟩
  · subst hp
    rw [ho, pushIndex_indices] at hi
    have hj : j = i := by simpa using hi
    subst hj
    exact ⟨hl, ⟨rfl, rfl, rfl, rfl, rfl⟩, fun k' i' hk => hk⟩
  · subst hp
    have : p.indexCount = i := by
      rw [hind] at hi
      simpa using hi
    subst this
    refine ⟨lookup_append_right hl, ⟨rfl, rfl, rfl, rfl, rfl⟩, ?_⟩
    intro k' i' hk
    exact lookup_append_left hk

/-- Selecting the `f ` branch of `parseLine`. -/
theorem parseLine_face {p : ObjParser} {o : Obj} {line : String}
    {options : ObjParserOptions} (hf : goHasPfx "f " line = true) :
    parseLine p o line options =
      parseFace { p with faceLines := p.faceLines + 1 } o (goDrop line 2) options := by
  obtain ⟨t, ht⟩ := goHasPfx_ex hf
  have hne : line ≠ "" := by
    intro he
    rw [he] at ht
    exact absurd ht (by simp)
  have hfr : goFront line = 'f' := by
    unfold goFront
    rw [ht]
    rfl
  have hs : goHasPfx "s " line = false := goHasPfx_false_of_ex hf (fun u => rfl)
  have ho : goHasPfx "o " line = false := goHasPfx_false_of_ex hf (fun u => rfl)
  have hg : goHasPfx "g " line = false := goHasPfx_false_of_ex hf (fun u => rfl)
  have hu : goHasPfx "usemtl " line = false := goHasPfx_false_of_ex hf (fun u => rfl)
  have hm : goHasPfx "mtllib " line = false := goHasPfx_false_of_ex hf (fun u => rfl)
  unfold parseLine
  rw [if_neg (not_or.mpr ⟨hne, by rw [hfr]; decide⟩),
    if_neg (by rw [hs]; decide), if_neg (by rw [ho, hg]; decide),
    if_neg (by rw [hu]; decide), if_neg (by rw [hm]; decide), if_pos hf]

/-! ## C7: quad faces are triangulated as (v0,v1,v2),(v2,v3,v0) -/

/-- C7: a face directive with exactly four vertex references whose four
references all resolve without error (pushing unified indices `a`, `b`,
`c`, `d` at the states the replay reaches) appends exactly the six unified
indices `[a, b, c, c, d, a]`, in that order. -/
theorem quad_face_triangulation
    (p : ObjParser) (o : Obj) (line f0 f1 f2 f3 : String)
    (options : ObjParserOptions) (a b c d : Int)
    (p1 p2 p3 p4 : ObjParser) (o1 o2 o3 o4 : Obj)
    (hline : goHasPfx "f " line = true)
    (hfields : goFields (goDrop line 2) = [f0, f1, f2, f3])
    (h0 : addVertex { p with
            faceLines := p.faceLines + 1, triangles := p.triangles + 1 } o f0 options =
            .ok p1 o1)
    (ho0 : o1.indices = o.indices ++ [a])
    (h1 : addVertex p1 o1 f1 options = .ok p2 o2)
    (ho1 : o2.indices = o1.indices ++ [b])
    (h2 : addVertex p2 o2 f2 options = .ok p3 o3)
    (ho2 : o3.indices = o2.indices ++ [c])
    (h3 : addVertex { p3 with triangles := p3.triangles + 1 }
            (pushIndex p3.currGroup o3 c) f3 options = .ok p4 o4)
    (ho3 : o4.indices = (pushIndex p3.currGroup o3 c).indices ++ [d]) :
    ∃ p' o', parseLine p o line options = .ok p' o' [] ∧
      o'.indices = o.indices ++ [a, b, c, c, d, a] := by
  obtain ⟨v0i, t0i, tI0, n0i, nI0, ht0, k0, hres0, hl0, hc0, -⟩ :=
    addVertex_key_after h0 ho0
  obtain ⟨v1i, t1i, tI1, n1i, nI1, ht1, k1, hres1, hl1, hc1, hm1⟩ :=
    addVertex_key_after h1 ho1
  obtain ⟨v2i, t2i, tI2, n2i, nI2, ht2, k2, hres2, hl2, hc2, hm2⟩ :=
    addVertex_key_after h2 ho2
  obtain ⟨v3i, t3i, tI3, n3i, nI3, ht3, k3, hres3, hl3, hc3, hm3⟩ :=
    addVertex_key_after h3 ho3
  -- the 4th reference (f2 again) reuses the mapping recorded for f2
  have hres2' : resolveRef { p3 with triangles := p3.triangles + 1 } f2 =
      .ok v2i t2i tI2 n2i nI2 ht2 k2 := by
    rw [resolveRef_congr f2
      (show ({ p3 with triangles := p3.triangles + 1 } : ObjParser).vertLines =
        p2.vertLines from hc2.1)
      (show ({ p3 with triangles := p3.triangles + 1 } : ObjParser).textLines =
        p2.textLines from hc2.2.1)
      (show ({ p3 with triangles := p3.triangles + 1 } : ObjParser).normLines =
        p2.normLines from hc2.2.2.1)
      (show ({ p3 with triangles := p3.triangles + 1 } : ObjParser).lineCount =
        p2.lineCount from hc2.2.2.2.1), hres2]
  have e4 : addVertex { p3 with triangles := p3.triangles + 1 } o3 f2 options =
      .ok { p3 with triangles := p3.triangles + 1 } (pushIndex p3.currGroup o3 c) :=
    addVertex_of_lookup o3 options hres2' hl2
  -- the 6th reference (f0 again) reuses the mapping recorded for f0
  have hl0' : p4.indexTable.lookup k0 = some a := hm3 _ _ (hm2 _ _ (hm1 _ _ hl0))
  have hres0' : resolveRef p4 f0 = .ok v0i t0i tI0 n0i nI0 ht0 k0 := by
    rw [resolveRef_congr f0
      (show p4.vertLines = ({ p with
          faceLines := p.faceLines + 1, triangles := p.triangles + 1 } :
          ObjParser).vertLines from
        hc3.1.trans (hc2.1.trans (hc1.1.trans hc0.1)))
      (show p4.textLines = ({ p with
          faceLines := p.faceLines + 1, triangles := p.triangles + 1 } :
          ObjParser).textLines from
        hc3.2.1.trans (hc2.2.1.trans (hc1.2.1.trans hc0.2.1)))
      (show p4.normLines = ({ p with
          faceLines := p.faceLines + 1, triangles := p.triangles + 1 } :
          ObjParser).normLines from
        hc3.2.2.1.trans (hc2.2.2.1.trans (hc1.2.2.1.trans hc0.2.2.1)))
      (show p4.lineCount = ({ p with
          faceLines := p.faceLines + 1, triangles := p.triangles + 1 } :
          ObjParser).lineCount from
        hc3.2.2.2.1.trans (hc2.2.2.2.1.trans (hc1.2.2.2.1.trans hc0.2.2.2.1))),
      hres0]
  have e6 : addVertex p4 o4 f0 options = .ok p4 (pushIndex p4.currGroup o4 a) :=
    addVertex_of_lookup o4 options hres0' hl0'
  refine ⟨p4, pushIndex p4.currGroup o4 a, ?_, ?_⟩
  · rw [parseLine_face hline]
    unfold parseFace
    rw [hfields]
    show bindFace (addVertexFace { p with
        faceLines := p.faceLines + 1, triangles := p.triangles + 1 } o f0
        (goDrop line 2) "v0" options) _ = _
    rw [show addVertexFace { p with
        faceLines := p.faceLines + 1, triangles := p.triangles + 1 } o f0
        (goDrop line 2) "v0" options =
        .ok p1 o1 [] from by unfold addVertexFace; rw [h0]]
    show bindFace (addVertexFace p1 o1 f1 (goDrop line 2) "v1" options) _ = _
    rw [show addVertexFace p1 o1 f1 (goDrop line 2) "v1" options = .ok p2 o2 []
      from by unfold addVertexFace; rw [h1]]
    show bindFace (addVertexFace p2 o2 f2 (goDrop line 2) "v2" options) _ = _
    rw [show addVertexFace p2 o2 f2 (goDrop line 2) "v2" options = .ok p3 o3 []
      from by unfold addVertexFace; rw [h2]]
    show bindFace (addVertexFace { p3 with triangles := p3.triangles + 1 } o3 f2
        (goDrop line 2) "v2" options) _ = _
    rw [show addVertexFace { p3 with triangles := p3.triangles + 1 } o3 f2
        (goDrop line 2) "v2" options =
        .ok { p3 with triangles := p3.triangles + 1 }
          (pushIndex p3.currGroup o3 c) [] from by unfold addVertexFace; rw [e4]]
    show bindFace (addVertexFace { p3 with triangles := p3.triangles + 1 }
        (pushIndex p3.currGroup o3 c) f3 (goDrop line 2) "v3" options) _ = _
    rw [show addVertexFace { p3 with triangles := p3.triangles + 1 }
        (pushIndex p3.currGroup o3 c) f3 (goDrop line 2) "v3" options =
        .ok p4 o4 [] from by unfold addVertexFace; rw [h3]]
    show bindFace (addVertexFace p4 o4 f0 (goDrop line 2) "v0" options) _ = _
    rw [show addVertexFace p4 o4 f0 (goDrop line 2) "v0" options =
        .ok p4 (pushIndex p4.currGroup o4 a) [] from by
      unfold addVertexFace; rw [e6]]
    rfl
  · rw [pushIndex_indices, ho3, pushIndex_indices, ho2, ho1, ho0]
    simp

/-- Witness base parser state: four position records collected in pass 1
and a replay that has counted four `v ` lines (witness plumbing). -/
def c7p : ObjParser :=
  { vertCoord := [⟨1, 1⟩, ⟨1, 1⟩, ⟨1, 1⟩, ⟨2, 1⟩, ⟨2, 1⟩, ⟨2, 1⟩,
      ⟨3, 1⟩, ⟨3, 1⟩, ⟨3, 1⟩, ⟨4, 1⟩, ⟨4, 1⟩, ⟨4, 1⟩],
    vertLines := 4 }

/-- Witness base Mesh with its initial implicit group (witness plumbing). -/
def c7o : Obj :=
  { groups := [{ name := "", smooth := 0, usemtl := "", indexBegin := 0, indexCount := 0 }] }

/-- The state the first face reference sees (witness plumbing). -/
def c7pA : ObjParser :=
  { c7p with faceLines := c7p.faceLines + 1, triangles := c7p.triangles + 1 }

/-- Successive states of the four references of `f 1 2 3 4`
(witness plumbing). -/
def c7s1 : AVOut := addVertex c7pA c7o "1" {}

def c7p1 : ObjParser := match c7s1 with | .ok p _ => p | _ => default

def c7o1 : Obj := match c7s1 with | .ok _ o => o | _ => default

def c7s2 : AVOut := addVertex c7p1 c7o1 "2" {}

def c7p2 : ObjParser := match c7s2 with | .ok p _ => p | _ => default

def c7o2 : Obj := match c7s2 with | .ok _ o => o | _ => default

def c7s3 : AVOut := addVertex c7p2 c7o2 "3" {}

def c7p3 : ObjParser := match c7s3 with | .ok p _ => p | _ => default

def c7o3 : Obj := match c7s3 with | .ok _ o => o | _ => default

def c7s4 : AVOut :=
  addVertex { c7p3 with triangles := c7p3.triangles + 1 }
    (pushIndex c7p3.currGroup c7o3 2) "4" {}

def c7p4 : ObjParser := match c7s4 with | .ok p _ => p | _ => default

def c7o4 : Obj := match c7s4 with | .ok _ o => o | _ => default

/-- Witness for `quad_face_triangulation`: the quad face `f 1 2 3 4` over
four collected vertices appends exactly `[0, 1, 2, 2, 3, 0]`. -/
theorem quad_face_triangulation_witness :
    ∃ p' o', parseLine c7p c7o "f 1 2 3 4" {} = .ok p' o' [] ∧
      o'.indices = c7o.indices ++ [0, 1, 2, 2, 3, 0] :=
  quad_face_triangulation c7p c7o "f 1 2 3 4" "1" "2" "3" "4" {} 0 1 2 3
    c7p1 c7p2 c7p3 c7p4 c7o1 c7o2 c7o3 c7o4
    (by decide) (by decide) (by decide) (by decide) (by decide) (by decide)
    (by decide) (by decide) (by decide) (by decide)

/-! ## C9: stride layout is a function of the two found-flags -/

/-- C9: for every Mesh produced by decoding, the stride layout depends only
on the two found-flags: position at offset 0; texture occupies the next
8 bytes when `textCoordFound`; normal the next 12 bytes when
`normCoordFound`; in particular positions-only gives stride 12,
positions+normals gives stride 24 with normal offset 12, and all three give
stride 32 with offsets 0, 12, 20. -/
theorem stride_layout :
    (∀ (objName : String) (lines : List String) (options : ObjParserOptions)
       (o : Obj) (logs : List String), readObj objName lines options = .ok o logs →
      o.strideOffsetPosition = 0 ∧
      o.strideSize =
        12 + (if o.textCoordFound then 8 else 0) + (if o.normCoordFound then 12 else 0) ∧
      o.strideOffsetTexture = (if o.textCoordFound then 12 else 0) ∧
      o.strideOffsetNormal =
        (if o.normCoordFound then (if o.textCoordFound then 20 else 12) else 0)) ∧
    (∀ o : Obj, o.textCoordFound = false → o.normCoordFound = false →
      (setupStride o).strideSize = 12 ∧ (setupStride o).strideOffsetPosition = 0) ∧
    (∀ o : Obj, o.textCoordFound = false → o.normCoordFound = true →
      (setupStride o).strideSize = 24 ∧ (setupStride o).strideOffsetNormal = 12) ∧
    (∀ o : Obj, o.textCoordFound = true → o.normCoordFound = true →
      (setupStride o).strideSize = 32 ∧ (setupStride o).strideOffsetPosition = 0 ∧
      (setupStride o).strideOffsetTexture = 12 ∧ (setupStride o).strideOffsetNormal = 20) := by
  refine ⟨?_, ?_, ?_, ?_⟩
  · intro objName lines options o logs h
    have h' : finishObj objName (readLines {} {} lines options).2.2 options
        (scanLines { (readLines {} {} lines options).1 with
          faceLines := 0, vertLines := 0, textLines := 0, normLines := 0 }
          (readLines {} {} lines options).2.1 options) = .ok o logs := h
    revert h'
    generalize scanLines _ _ options = sc
    intro h'
    cases sc with
    | crash => exact absurd h' (by simp [finishObj])
    | ok p2 o2 logs2 =>
      unfold finishObj at h'
      rw [DecodeOut.ok.injEq] at h'
      obtain ⟨ho, -⟩ := h'
      subst ho
      exact setupStride_spec { o2 with groups := (dropGroups objName o2.groups).1 }
  · intro o h1 h2; simp [setupStride, h1, h2]
  · intro o h1 h2; simp [setupStride, h1, h2]
  · intro o h1 h2; simp [setupStride, h1, h2]

/-- The Mesh decoded from the one-line input `v 0 0 0` (witness plumbing). -/
def strideDemoObj : Obj :=
  match readObj "w" ["v 0 0 0"] {} with
  | .ok o _ => o
  | .crash => default

/-- The diagnostics of that same decode (witness plumbing). -/
def strideDemoLogs : List String :=
  match readObj "w" ["v 0 0 0"] {} with
  | .ok _ logs => logs
  | .crash => []

/-- Witness for `stride_layout` at a concrete decode. -/
theorem stride_layout_witness :
    readObj "w" ["v 0 0 0"] {} = .ok strideDemoObj strideDemoLogs ∧
      strideDemoObj.strideOffsetPosition = 0 ∧
      strideDemoObj.strideSize = 12 +
        (if strideDemoObj.textCoordFound then 8 else 0) +
        (if strideDemoObj.normCoordFound then 12 else 0) := by
  have he : readObj "w" ["v 0 0 0"] {} = .ok strideDemoObj strideDemoLogs := by decide
  have h := stride_layout.1 "w" ["v 0 0 0"] {} strideDemoObj strideDemoLogs he
  exact ⟨he, h.1, h.2.1⟩

/-! ## C1: material library name (mtllib) -/

/-- C1 counterexample: with two `mtllib` lines the stored name is the one
from the *second* line, not the first (`obj.go` 742-747 assigns
unconditionally), refuting "first occurrence wins". -/
theorem mtllib_first_wins_counterexample :
    (match newObjFromBuf "demo" "mtllib a.mtl\nmtllib b.mtl" {} with
     | .ok o _ => o.mtllib
     | .crash => "") = "b.mtl" ∧ ("b.mtl" : String) ≠ "a.mtl" :=
  ⟨by decide, by decide⟩

/-- C1 (amended): every `mtllib` line overwrites the stored library name
(last occurrence wins); when a name was already set, the redefinition is
additionally reported as a diagnostic, not an error. -/
theorem mtllib_last_wins (p : ObjParser) (o : Obj) (options : ObjParserOptions)
    (name : String) :
    parseLine p o ("mtllib " ++ name) options =
      .ok p { o with mtllib := name }
        (if o.mtllib ≠ "" then
          ["parseLine: line=" ++ toString p.lineCount ++ " mtllib redefinition old=" ++
            o.mtllib ++ " new=" ++ name]
        else []) := by
  have hne : ("mtllib " ++ name) ≠ "" := str_ne_empty_of_append name (by decide)
  have hfr : goFront ("mtllib " ++ name) = 'm' := rfl
  have hs : goHasPfx "s " ("mtllib " ++ name) = false := rfl
  have ho : goHasPfx "o " ("mtllib " ++ name) = false := rfl
  have hg : goHasPfx "g " ("mtllib " ++ name) = false := rfl
  have hu : goHasPfx "usemtl " ("mtllib " ++ name) = false := rfl
  have hm : goHasPfx "mtllib " ("mtllib " ++ name) = true := goHasPfx_append _ _
  have hdrop : goDrop ("mtllib " ++ name) 7 = name := rfl
  simp only [parseLine, hne, hfr, hs, ho, hg, hu, hm, hdrop, if_true, if_false,
    Bool.false_eq_true, Bool.true_eq_false, or_self, ite_false, ite_true, false_or]
  rw [if_neg (by decide : ¬ ('m' : Char) = '#')]

/-! ## C2: out-of-range component indices -/

/-- C2: the claim says an out-of-range resolved index is always reported as
a non-fatal error that skips the reference; but `addVertex` (`obj.go`
676-684) indexes the raw normal array without any bounds check, so an
out-of-range normal index makes the decode panic instead: evaluating the
code at the failing input yields the modeled Go runtime crash. -/
theorem normal_index_out_of_range_crashes :
    newObjFromBuf "demo" "v 0 0 0\nvn 0 0 1\nf 1//2 1//2 1//2" {} = .crash := by
  decide

/-! ## Error-line effect lemmas (pass 1 and pass 2) -/

theorem parseLineVertexCore_obj (p : ObjParser) (o : Obj) (line : String)
    (options : ObjParserOptions) :
    (parseLineVertexCore p o line options).obj = some o := by
  unfold parseLineVertexCore
  by_cases h1 : line = "" ∨ goFront line = '#'
  · rw [if_pos h1]
    rfl
  · rw [if_neg h1]
    by_cases h2 : goHasPfx "s " line = true
    · rw [if_pos h2]
      rfl
    · rw [if_neg h2]
      by_cases h3 : goHasPfx "o " line = true
      · rw [if_pos h3]
        rfl
      · rw [if_neg h3]
        by_cases h4 : goHasPfx "g " line = true
        · rw [if_pos h4]
          rfl
        · rw [if_neg h4]
          by_cases h5 : goHasPfx "usemtl " line = true
          · rw [if_pos h5]
            rfl
          · rw [if_neg h5]
            by_cases h6 : goHasPfx "mtllib " line = true
            · rw [if_pos h6]
              rfl
            · rw [if_neg h6]
              by_cases h7 : goHasPfx "f " line = true
              · rw [if_pos h7]
                rfl
              · rw [if_neg h7]
                by_cases h8 : goHasPfx "vt " line = true
                · rw [if_pos h8]
                  cases hps : parseFloatSliceSpace (goDrop line 3) with
                  | error e => rfl
                  | ok t =>
                    dsimp only
                    by_cases hsz : t.length < 2 ∨ t.length > 3
                    · rw [if_pos hsz]
                      rfl
                    · rw [if_neg hsz]
                      rfl
                · rw [if_neg h8]
                  by_cases h9 : goHasPfx "vn " line = true
                  · rw [if_pos h9]
                    cases hps : parseFloatVector3Space (goDrop line 3) with
                    | error e => rfl
                    | ok n => rfl
                  · rw [if_neg h9]
                    by_cases h10 : goHasPfx "v " line = true
                    · rw [if_pos h10]
                      cases hps : parseFloatSliceSpace (goDrop line 2) with
                      | error e => rfl
                      | ok result =>
                        rcases result with - | ⟨a, - | ⟨b, - | ⟨c, - | ⟨w, - | ⟨x, t⟩⟩⟩⟩⟩ <;>
                          rfl
                    · rw [if_neg h10]
                      rfl

theorem parseLineVertex_obj (p : ObjParser) (o : Obj) (rawLine : String)
    (options : ObjParserOptions) :
    (∀ p' o' lg, parseLineVertex p o rawLine options = .ok p' o' lg → o' = o) ∧
    (∀ p' o' lg m, parseLineVertex p o rawLine options = .err p' o' lg m → o' = o) := by
  constructor
  · intro p' o' lg h
    have hobj := parseLineVertexCore_obj
      { p with lineBuf := p.lineBuf ++ [goTrim rawLine] } o (goTrim rawLine) options
    rw [show parseLineVertexCore { p with lineBuf := p.lineBuf ++ [goTrim rawLine] } o
      (goTrim rawLine) options = parseLineVertex p o rawLine options from rfl, h] at hobj
    exact Option.some.inj hobj
  · intro p' o' lg m h
    have hobj := parseLineVertexCore_obj
      { p with lineBuf := p.lineBuf ++ [goTrim rawLine] } o (goTrim rawLine) options
    rw [show parseLineVertexCore { p with lineBuf := p.lineBuf ++ [goTrim rawLine] } o
      (goTrim rawLine) options = parseLineVertex p o rawLine options from rfl, h] at hobj
    exact Option.some.inj hobj

/-- Pass 1 never touches the Mesh: the loop of `readLines` returns the Obj
it was given. -/
theorem readLines_go_obj (options : ObjParserOptions) (lines : List String) :
    ∀ (p : ObjParser) (o : Obj) (logs : List String),
      (readLines.go options p o lines logs).2.1 = o := by
  induction lines with
  | nil => intro p o logs; rfl
  | cons l rest ih =>
    intro p o logs
    rcases hh : parseLineVertex { p with lineCount := p.lineCount + 1 } o l options with
      ⟨p2, o2, lg2⟩ | ⟨p2, o2, lg2, m2⟩ | -
    · have ho2 : o2 = o := (parseLineVertex_obj _ _ _ _).1 _ _ _ hh
      simp only [readLines.go, hh]
      rw [ih]
      exact ho2
    · have ho2 : o2 = o := (parseLineVertex_obj _ _ _ _).2 _ _ _ _ hh
      simp only [readLines.go, hh]
      rw [ih]
      exact ho2
    · simp only [readLines.go, hh]

theorem readLines_obj (p : ObjParser) (o : Obj) (lines : List String)
    (options : ObjParserOptions) :
    (readLines p o lines options).2.1 = o :=
  readLines_go_obj options lines { p with lineCount := 0 } o []

/-- Whatever error a replayed non-face line produces, the states carried by
the error are the untouched input states and no diagnostics. -/
theorem parseLine_errOut (p : ObjParser) (o : Obj) (line : String)
    (options : ObjParserOptions) (hf : goHasPfx "f " line = false) :
    ∀ s, (parseLine p o line options).errOut = some s → s = (p, o, []) := by
  unfold parseLine
  by_cases h1 : line = "" ∨ goFront line = '#'
  · rw [if_pos h1]
    exact fun s hs => Option.noConfusion hs
  · rw [if_neg h1]
    by_cases h2 : goHasPfx "s " line = true
    · rw [if_pos h2]
      intro s hs
      dsimp only at hs
      rcases hsm : smoothGroup (goDrop line 2) with - | sv
      · rw [hsm] at hs
        dsimp only at hs
        exact (Option.some.inj hs).symm
      · rw [hsm] at hs
        dsimp only at hs
        by_cases hne : (getGroup o p.currGroup).smooth ≠ sv
        · rw [if_pos hne] at hs
          exact Option.noConfusion hs
        · rw [if_neg hne] at hs
          exact Option.noConfusion hs
    · rw [if_neg h2]
      by_cases h3 : goHasPfx "o " line = true ∨ goHasPfx "g " line = true
      · rw [if_pos h3]
        by_cases hn : (getGroup o p.currGroup).name = ""
        · rw [if_pos hn]
          exact fun s hs => Option.noConfusion hs
        · rw [if_neg hn]
          by_cases hne : (getGroup o p.currGroup).name ≠ goDrop line 2
          · rw [if_pos hne]
            exact fun s hs => Option.noConfusion hs
          · rw [if_neg hne]
            exact fun s hs => Option.noConfusion hs
      · rw [if_neg h3]
        by_cases h5 : goHasPfx "usemtl " line = true
        · rw [if_pos h5]
          by_cases hu : (getGroup o p.currGroup).usemtl = ""
          · rw [if_pos hu]
            exact fun s hs => Option.noConfusion hs
          · rw [if_neg hu]
            by_cases hne : (getGroup o p.currGroup).usemtl ≠ goDrop line 7
            · rw [if_pos hne]
              exact fun s hs => Option.noConfusion hs
            · rw [if_neg hne]
              exact fun s hs => Option.noConfusion hs
        · rw [if_neg h5]
          by_cases h6 : goHasPfx "mtllib " line = true
          · rw [if_pos h6]
            exact fun s hs => Option.noConfusion hs
          · rw [if_neg h6]
            rw [if_neg (show ¬ goHasPfx "f " line = true by rw [hf]; decide)]
            by_cases h8 : goHasPfx "v " line = true
            · rw [if_pos h8]
              exact fun s hs => Option.noConfusion hs
            · rw [if_neg h8]
              by_cases h9 : goHasPfx "vt " line = true
              · rw [if_pos h9]
                exact fun s hs => Option.noConfusion hs
              · rw [if_neg h9]
                by_cases h10 : goHasPfx "vn " line = true
                · rw [if_pos h10]
                  exact fun s hs => Option.noConfusion hs
                · rw [if_neg h10]
                  exact fun s hs => (Option.some.inj hs).symm

/-- A replayed line that errors without being a face directive leaves both
the parser state and the Mesh exactly as they were. -/
theorem parseLine_err_nonface {p : ObjParser} {o : Obj} {line : String}
    {options : ObjParserOptions} {p' : ObjParser} {o' : Obj} {lg : List String}
    {m : String} (hf : goHasPfx "f " line = false)
    (h : parseLine p o line options = .err p' o' lg m) :
    o' = o ∧ p' = p ∧ lg = [] := by
  have hs := parseLine_errOut p o line options hf (p', o', lg) (by rw [h]; rfl)
  exact ⟨congrArg (fun t => t.2.1) hs, congrArg (fun t => t.1) hs,
    congrArg (fun t => t.2.2) hs⟩

/-! ## C4: effect of lines that trigger non-fatal errors -/

/-- C4 counterexample: in the decode of
`"v 0 0 0\nvt 0 0\nf 1/9 1/9 1/9"` the face line errors (the resolved
texture offset fails the bounds check), yet the Mesh's vertex buffer has
grown by the three position components the failing line had already
appended — the line is not skipped as a whole. Decoding continued (the
result is `ok`) and the error was reported. -/
theorem error_line_skipped_counterexample :
    (match newObjFromBuf "demo" "v 0 0 0\nvt 0 0\nf 1/9 1/9 1/9" {} with
     | .ok o logs => (o.coord.length, o.indices.length,
         logs.any (fun m => goHasPfx "scanLines: " m))
     | .crash => (0, 0, false)) = (3, 0, true) := by decide

/-- C4 (amended): a pass-1 line that errors leaves the Mesh untouched; a
replayed line that errors without being a face directive leaves the Mesh
and the parser state exactly as they were; and after any error the replay
loop continues with the next line, only recording the diagnostic. A face
line that errors mid-way, however, keeps the mutations already made (see
the counterexample). -/
theorem nonfatal_error_skip :
    (∀ (p : ObjParser) (o : Obj) (rawLine : String) (options : ObjParserOptions)
       (p' : ObjParser) (o' : Obj) (lg : List String) (m : String),
      parseLineVertex p o rawLine options = .err p' o' lg m → o' = o) ∧
    (∀ (p : ObjParser) (o : Obj) (line : String) (options : ObjParserOptions)
       (p' : ObjParser) (o' : Obj) (lg : List String) (m : String),
      goHasPfx "f " line = false →
      parseLine p o line options = .err p' o' lg m → o' = o ∧ p' = p) ∧
    (∀ (l : String) (rest : List String) (p : ObjParser) (o : Obj)
       (logs : List String) (options : ObjParserOptions)
       (p₁ : ObjParser) (o₁ : Obj) (lg : List String) (m : String),
      parseLine { p with lineCount := p.lineCount + 1 } o l options = .err p₁ o₁ lg m →
      scanLoop (l :: rest) p o logs options =
        scanLoop rest p₁ o₁ (logs ++ lg ++ ["scanLines: " ++ m]) options) := by
  refine ⟨?_, ?_, ?_⟩
  · intro p o rawLine options p' o' lg m h
    exact (parseLineVertex_obj p o rawLine options).2 p' o' lg m h
  · intro p o line options p' o' lg m hf h
    obtain ⟨h1, h2, -⟩ := parseLine_err_nonface hf h
    exact ⟨h1, h2⟩
  · intro l rest p o logs options p₁ o₁ lg m h
    dsimp only [scanLoop]
    rw [h]

/-- A replayed line that hits the distinct-directive fallthrough
(witness plumbing). -/
def c4s : LineOut := parseLine {} {} "xyz" {}

def c4p : ObjParser := match c4s with | .err p _ _ _ => p | _ => default

def c4o : Obj := match c4s with | .err _ o _ _ => o | _ => default

def c4lg : List String := match c4s with | .err _ _ lg _ => lg | _ => []

def c4m : String := match c4s with | .err _ _ _ m => m | _ => ""

/-- Witness for `nonfatal_error_skip`: the unrecognized line `xyz` errors
and leaves both states untouched. -/
theorem nonfatal_error_skip_witness :
    c4o = ({} : Obj) ∧ c4p = ({} : ObjParser) :=
  nonfatal_error_skip.2.1 {} {} "xyz" {} c4p c4o c4lg c4m (by decide) (by decide)

/-! ## C3: multiple-of-3 shape of the index data -/

/-- `n` successive unit bumps of group `c`'s index count. -/
def bumpN (gs : List Group) (c : Nat) : Nat → List Group
  | 0 => gs
  | n + 1 => bumpGroup (bumpN gs c n) c

theorem getD_set_self {gs : List Group} {c : Nat} (h : c < gs.length) {g : Group} :
    (gs.set c g).getD c default = g := by
  rw [List.getD_eq_getElem?_getD]
  rw [List.getElem?_set_self]
  · rfl
  · simpa using h

theorem getD_append_length (l : List Group) (x : Group) :
    (l ++ [x]).getD l.length default = x := by
  rw [List.getD_eq_getElem?_getD, List.getElem?_concat_length]
  rfl

theorem bumpN_out {gs : List Group} {c : Nat} (h : gs.length ≤ c) :
    ∀ n, bumpN gs c n = gs := by
  intro n
  induction n with
  | zero => rfl
  | succ n ih =>
    show bumpGroup (bumpN gs c n) c = gs
    rw [ih]
    unfold bumpGroup
    exact List.set_eq_of_length_le h

theorem bump3_set (gs : List Group) (c : Nat) (h : c < gs.length) :
    bumpN gs c 3 = gs.set c { gs.getD c default with
      indexCount := (gs.getD c default).indexCount + 1 + 1 + 1 } := by
  show bumpGroup (bumpGroup (bumpGroup gs c) c) c = _
  unfold bumpGroup
  simp only [List.set_set, getD_set_self h]

theorem bump6_set (gs : List Group) (c : Nat) (h : c < gs.length) :
    bumpN gs c 6 = gs.set c { gs.getD c default with
      indexCount := (gs.getD c default).indexCount + 1 + 1 + 1 + 1 + 1 + 1 } := by
  show bumpGroup (bumpGroup (bumpGroup (bumpGroup (bumpGroup (bumpGroup gs c) c) c) c) c) c = _
  unfold bumpGroup
  simp only [List.set_set, getD_set_self h]

/-- A successful `addVertex` pushes exactly one unified index, counted in
the group the current-group pointer designates, without moving it. -/
theorem addVertex_shape {p : ObjParser} {o : Obj} {r : String}
    {options : ObjParserOptions} {p' : ObjParser} {o' : Obj}
    (h : addVertex p o r options = .ok p' o') :
    o'.indices.length = o.indices.length + 1 ∧
    o'.groups = bumpGroup o.groups p.currGroup ∧
    p'.currGroup = p.currGroup := by
  obtain ⟨vi, ti, tI, ni, nI, ht, k, hres, hcase⟩ := addVertex_ok h
  rcases hcase with ⟨i, hl, hp, ho⟩ | ⟨hl, hp, hind, hlen, hgr, hm⟩
  · subst hp
    subst ho
    exact ⟨by rw [pushIndex_indices]; simp, pushIndex_groups _ _ _, rfl⟩
  · subst hp
    exact ⟨by rw [hind]; simp, hgr, rfl⟩

/-- A face line that replays without error pushes exactly 3 (triangle) or
6 (quad) unified indices, all counted in the current group. -/
theorem parseFace_shape {p : ObjParser} {o : Obj} {face : String}
    {options : ObjParserOptions} {p' : ObjParser} {o' : Obj} {lg : List String}
    (h : parseFace p o face options = .ok p' o' lg) :
    p'.currGroup = p.currGroup ∧
    ((o'.indices.length = o.indices.length + 3 ∧
      o'.groups = bumpN o.groups p.currGroup 3) ∨
     (o'.indices.length = o.indices.length + 6 ∧
      o'.groups = bumpN o.groups p.currGroup 6)) := by
  simp only [parseFace] at h
  split at h
  · exact absurd h (by simp)
  · obtain ⟨p1, o1, lg1, hr1, h⟩ := bindFace_ok h
    obtain ⟨ha1, -⟩ := addVertexFace_ok hr1
    obtain ⟨l1, g1, c1⟩ := addVertex_shape ha1
    obtain ⟨p2, o2, lg2, hr2, h⟩ := bindFace_ok h
    obtain ⟨ha2, -⟩ := addVertexFace_ok hr2
    obtain ⟨l2, g2, c2⟩ := addVertex_shape ha2
    obtain ⟨p3, o3, lg3, hr3, h⟩ := bindFace_ok h
    obtain ⟨ha3, -⟩ := addVertexFace_ok hr3
    obtain ⟨l3, g3, c3⟩ := addVertex_shape ha3
    split at h
    · obtain ⟨p4, o4, lg4, hr4, h⟩ := bindFace_ok h
      obtain ⟨ha4, -⟩ := addVertexFace_ok hr4
      obtain ⟨l4, g4, c4⟩ := addVertex_shape ha4
      obtain ⟨p5, o5, lg5, hr5, h⟩ := bindFace_ok h
      obtain ⟨ha5, -⟩ := addVertexFace_ok hr5
      obtain ⟨l5, g5, c5⟩ := addVertex_shape ha5
      obtain ⟨p6, o6, lg6, hr6, h⟩ := bindFace_ok h
      obtain ⟨ha6, -⟩ := addVertexFace_ok hr6
      obtain ⟨l6, g6, c6⟩ := addVertex_shape ha6
      obtain ⟨hp, ho, -⟩ := LineOut.ok.inj h
      subst hp
      subst ho
      refine ⟨c6.trans (c5.trans (c4.trans (c3.trans (c2.trans c1)))),
        Or.inr ⟨by omega, ?_⟩⟩
      rw [g6, g5, g4, g3, g2, g1, c5, c4, c3, c2, c1]
      rfl
    · obtain ⟨hp, ho, -⟩ := LineOut.ok.inj h
      subst hp
      subst ho
      refine ⟨c3.trans (c2.trans c1), Or.inl ⟨by omega, ?_⟩⟩
      rw [g3, g2, g1, c2, c1]
      rfl

/-- Invariant of the replay pass: the index list holds whole triangles,
every group's count is a whole number of triangles or the bogus marker,
and the current group's count is a whole number of triangles. -/
def meshInv (c : Nat) (o : Obj) : Prop :=
  o.indices.length % 3 = 0 ∧
  (∀ g ∈ o.groups, g.indexCount % 3 = 0 ∨ g.indexCount = -1) ∧
  (getGroup o c).indexCount % 3 = 0

theorem meshInv_append0 {o : Obj} (h1 : o.indices.length % 3 = 0)
    (h2 : ∀ g ∈ o.groups, g.indexCount % 3 = 0 ∨ g.indexCount = -1)
    (gr : Group) (h0 : gr.indexCount = 0) :
    meshInv o.groups.length { o with groups := o.groups ++ [gr] } := by
  refine ⟨h1, ?_, ?_⟩
  · intro g hg
    rcases List.mem_append.mp hg with hg | hg
    · exact h2 g hg
    · rw [List.mem_singleton] at hg
      subst hg
      exact Or.inl (by rw [h0]; decide)
  · show ((o.groups ++ [gr]).getD o.groups.length default).indexCount % 3 = 0
    rw [getD_append_length, h0]
    decide

theorem meshInv_set {c : Nat} {o : Obj} (hinv : meshInv c o) (g' : Group)
    (hcnt : g'.indexCount = (getGroup o c).indexCount) :
    meshInv c { o with groups := o.groups.set c g' } := by
  obtain ⟨h1, h2, h3⟩ := hinv
  refine ⟨h1, ?_, ?_⟩
  · intro g hg
    rcases List.mem_or_eq_of_mem_set hg with hg | hg
    · exact h2 g hg
    · subst hg
      exact Or.inl (by rw [hcnt]; exact h3)
  · by_cases hc : c < o.groups.length
    · show ((o.groups.set c g').getD c default).indexCount % 3 = 0
      rw [getD_set_self hc, hcnt]
      exact h3
    · show ((o.groups.set c g').getD c default).indexCount % 3 = 0
      rw [List.set_eq_of_length_le (Nat.le_of_not_lt hc)]
      exact h3

theorem meshInv_bump3 {c : Nat} {o : Obj} (hinv : meshInv c o) {o' : Obj}
    (hlen : o'.indices.length = o.indices.length + 3)
    (hgr : o'.groups = bumpN o.groups c 3) : meshInv c o' := by
  obtain ⟨h1, h2, h3⟩ := hinv
  have h3' : (o.groups.getD c default).indexCount % 3 = 0 := h3
  by_cases hc : c < o.groups.length
  · rw [bump3_set o.groups c hc] at hgr
    refine ⟨by omega, ?_, ?_⟩
    · intro g hg
      rw [hgr] at hg
      rcases List.mem_or_eq_of_mem_set hg with hg | hg
      · exact h2 g hg
      · subst hg
        refine Or.inl ?_
        show ((o.groups.getD c default).indexCount + 1 + 1 + 1) % 3 = 0
        omega
    · show (o'.groups.getD c default).indexCount % 3 = 0
      rw [hgr, getD_set_self hc]
      show ((o.groups.getD c default).indexCount + 1 + 1 + 1) % 3 = 0
      omega
  · rw [bumpN_out (Nat.le_of_not_lt hc) 3] at hgr
    refine ⟨by omega, ?_, ?_⟩
    · intro g hg
      rw [hgr] at hg
      exact h2 g hg
    · show (o'.groups.getD c default).indexCount % 3 = 0
      rw [hgr]
      exact h3'

theorem meshInv_bump6 {c : Nat} {o : Obj} (hinv : meshInv c o) {o' : Obj}
    (hlen : o'.indices.length = o.indices.length + 6)
    (hgr : o'.groups = bumpN o.groups c 6) : meshInv c o' := by
  obtain ⟨h1, h2, h3⟩ := hinv
  have h3' : (o.groups.getD c default).indexCount % 3 = 0 := h3
  by_cases hc : c < o.groups.length
  · rw [bump6_set o.groups c hc] at hgr
    refine ⟨by omega, ?_, ?_⟩
    · intro g hg
      rw [hgr] at hg
      rcases List.mem_or_eq_of_mem_set hg with hg | hg
      · exact h2 g hg
      · subst hg
        refine Or.inl ?_
        show ((o.groups.getD c default).indexCount + 1 + 1 + 1 + 1 + 1 + 1) % 3 = 0
        omega
    · show (o'.groups.getD c default).indexCount % 3 = 0
      rw [hgr, getD_set_self hc]
      show ((o.groups.getD c default).indexCount + 1 + 1 + 1 + 1 + 1 + 1) % 3 = 0
      omega
  · rw [bumpN_out (Nat.le_of_not_lt hc) 6] at hgr
    refine ⟨by omega, ?_, ?_⟩
    · intro g hg
      rw [hgr] at hg
      exact h2 g hg
    · show (o'.groups.getD c default).indexCount % 3 = 0
      rw [hgr]
      exact h3'

set_option maxHeartbeats 1600000 in
/-- Every replayed line that succeeds preserves the triangle-shape
invariant of the Mesh. -/
theorem parseLine_inv {p : ObjParser} {o : Obj} {line : String}
    {options : ObjParserOptions} {p' : ObjParser} {o' : Obj} {lg : List String}
    (h : parseLine p o line options = .ok p' o' lg)
    (hinv : meshInv p.currGroup o) : meshInv p'.currGroup o' := by
  unfold parseLine at h
  dsimp only [Obj.newGroup] at h
  split at h
  · obtain ⟨hp, ho, -⟩ := LineOut.ok.inj h
    subst hp
    subst ho
    exact hinv
  · split at h
    · split at h
      · split at h
        · obtain ⟨hp, ho, -⟩ := LineOut.ok.inj h
          subst hp
          subst ho
          refine meshInv_append0 hinv.1 hinv.2.1 _ ?_
          rfl
        · obtain ⟨hp, ho, -⟩ := LineOut.ok.inj h
          subst hp
          subst ho
          exact hinv
      · exact absurd h (by simp)
    · split at h
      · split at h
        · obtain ⟨hp, ho, -⟩ := LineOut.ok.inj h
          subst hp
          subst ho
          refine meshInv_set hinv _ ?_
          rfl
        · split at h
          · obtain ⟨hp, ho, -⟩ := LineOut.ok.inj h
            subst hp
            subst ho
            refine meshInv_append0 hinv.1 hinv.2.1 _ ?_
            rfl
          · obtain ⟨hp, ho, -⟩ := LineOut.ok.inj h
            subst hp
            subst ho
            exact hinv
      · split at h
        · split at h
          · obtain ⟨hp, ho, -⟩ := LineOut.ok.inj h
            subst hp
            subst ho
            refine meshInv_set hinv _ ?_
            rfl
          · split at h
            · split at h
              · obtain ⟨hp, ho, -⟩ := LineOut.ok.inj h
                subst hp
                subst ho
                refine meshInv_append0 ?_ ?_ _ ?_
                · exact hinv.1
                · intro g hg
                  rcases List.mem_or_eq_of_mem_set hg with hg | hg
                  · exact hinv.2.1 g hg
                  · subst hg
                    exact Or.inr rfl
                · rfl
              · obtain ⟨hp, ho, -⟩ := LineOut.ok.inj h
                subst hp
                subst ho
                refine meshInv_append0 hinv.1 hinv.2.1 _ ?_
                rfl
            · obtain ⟨hp, ho, -⟩ := LineOut.ok.inj h
              subst hp
              subst ho
              exact hinv
        · split at h
          · obtain ⟨hp, ho, -⟩ := LineOut.ok.inj h
            subst hp
            subst ho
            exact hinv
          · split at h
            · obtain ⟨hc, hsh⟩ := parseFace_shape h
              rw [hc]
              rcases hsh with ⟨hlen, hgr⟩ | ⟨hlen, hgr⟩
              · exact meshInv_bump3 hinv hlen hgr
              · exact meshInv_bump6 hinv hlen hgr
            · split at h
              · obtain ⟨hp, ho, -⟩ := LineOut.ok.inj h
                subst hp
                subst ho
                exact hinv
              · split at h
                · obtain ⟨hp, ho, -⟩ := LineOut.ok.inj h
                  subst hp
                  subst ho
                  exact hinv
                · split at h
                  · obtain ⟨hp, ho, -⟩ := LineOut.ok.inj h
                    subst hp
                    subst ho
                    exact hinv
                  · exact absurd h (by simp)

/-- Whether every buffered line that is a face directive replays without a
non-fatal error (other lines may error). -/
def facesOk (p : ObjParser) (o : Obj) (lines : List String)
    (options : ObjParserOptions) : Bool :=
  match lines with
  | [] => true
  | l :: rest =>
    match parseLine { p with lineCount := p.lineCount + 1 } o l options with
    | .ok p2 o2 _ => facesOk p2 o2 rest options
    | .err p2 o2 _ _ => !(goHasPfx "f " l) && facesOk p2 o2 rest options
    | .crash => false

/-- The replay loop preserves the triangle-shape invariant whenever no face
line errors. -/
theorem scanLoop_inv :
    ∀ (lines : List String) (p : ObjParser) (o : Obj) (logs : List String)
      (options : ObjParserOptions) (p' : ObjParser) (o' : Obj) (logs' : List String),
      scanLoop lines p o logs options = .ok p' o' logs' →
      facesOk p o lines options = true →
      meshInv p.currGroup o → meshInv p'.currGroup o' := by
  intro lines
  induction lines with
  | nil =>
    intro p o logs options p' o' logs' h hf hinv
    obtain ⟨hp, ho, -⟩ := ScanOut.ok.inj h
    subst hp
    subst ho
    exact hinv
  | cons l rest ih =>
    intro p o logs options p' o' logs' h hf hinv
    dsimp only [scanLoop] at h
    dsimp only [facesOk] at hf
    rcases hpl : parseLine { p with lineCount := p.lineCount + 1 } o l options with
      ⟨p2, o2, lg2⟩ | ⟨p2, o2, lg2, m2⟩ | -
    · rw [hpl] at h hf
      have hinv2 : meshInv p2.currGroup o2 := parseLine_inv hpl hinv
      exact ih p2 o2 (logs ++ lg2) options p' o' logs' h hf hinv2
    · rw [hpl] at h hf
      rw [Bool.and_eq_true] at hf
      obtain ⟨hnf, hf2⟩ := hf
      have hnf' : goHasPfx "f " l = false := by
        rwa [Bool.not_eq_true'] at hnf
      obtain ⟨ho2, hp2, -⟩ := parseLine_err_nonface hnf' hpl
      rw [ho2, hp2] at h hf2
      exact ih _ o _ options p' o' logs' h hf2 hinv
    · rw [hpl] at h
      exact absurd h (by simp)

/-- Whether every face line of a decode's replay succeeds, phrased over the
exact states the decode passes to the replay loop. -/
def replayFacesOk (lines : List String) (options : ObjParserOptions) : Bool :=
  let r1 := readLines {} {} lines options
  let p := { r1.1 with faceLines := 0, vertLines := 0, textLines := 0, normLines := 0 }
  let og := Obj.newGroup r1.2.1 "" "" 0 0
  let p2 := { p with currGroup := og.2 }
  facesOk { p2 with lineCount := 0 } og.1 p2.lineBuf options

theorem setupStride_fields (o : Obj) :
    (setupStride o).indices = o.indices ∧ (setupStride o).groups = o.groups := by
  cases h1 : o.textCoordFound <;> cases h2 : o.normCoordFound <;>
    simp [setupStride, h1, h2]

/-- The group section of the writer never returns the multiple-of-3 error
when every group's count is a multiple of 3. -/
theorem writeGroups_isErr (o : Obj) :
    ∀ gs : List Group, (∀ g ∈ gs, g.indexCount % 3 = 0) →
    ∀ acc, WriterOut.isErr (writeGroups o gs acc) = false := by
  intro gs
  induction gs with
  | nil => intro h acc; rfl
  | cons g rest ih =>
    intro h acc
    dsimp only [writeGroups]
    rw [if_neg (not_not_intro (h g (List.mem_cons_self _ _)))]
    cases hw : writeFaces o g with
    | none => rfl
    | some s => exact ih (fun g' hg' => h g' (List.mem_cons_of_mem _ hg')) _

/-- The writer errors only through the group section. -/
theorem toWriter_isErr (o : Obj) (h : ∀ g ∈ o.groups, g.indexCount % 3 = 0) :
    WriterOut.isErr (toWriter o) = false := by
  unfold toWriter
  dsimp only
  split
  · rfl
  · exact writeGroups_isErr o o.groups h _

/-- `dropGroups` keeps exactly the groups with a non-negative index count
and logs a BAD GROUP SIZE diagnostic for every kept group with fewer than
3 indices. -/
theorem dropGroups_spec (objName : String) (gs : List Group) :
    (dropGroups objName gs).1 = gs.filter (fun g => 0 ≤ g.indexCount) ∧
    ∀ g ∈ gs, 0 ≤ g.indexCount → g.indexCount < 3 →
      ("readObj: obj=" ++ objName ++ " BAD GROUP SIZE group=" ++ g.name ++
        " size=" ++ toString g.indexCount ++ " < 3") ∈ (dropGroups objName gs).2 := by
  induction gs with
  | nil => exact ⟨rfl, by simp⟩
  | cons g rest ih =>
    rcases hrec : dropGroups objName rest with ⟨ks, ls⟩
    rw [hrec] at ih
    by_cases h0 : g.indexCount < 0
    · refine ⟨?_, ?_⟩
      · simp only [dropGroups, hrec, if_pos h0]
        rw [List.filter_cons_of_neg (by simpa using h0)]
        exact ih.1
      · intro g' hg' hge hlt
        simp only [dropGroups, hrec, if_pos h0]
        rcases List.mem_cons.mp hg' with he | hm
        · subst he; omega
        · exact ih.2 g' hm hge hlt
    · by_cases h3 : g.indexCount < 3
      · refine ⟨?_, ?_⟩
        · simp only [dropGroups, hrec, if_neg h0, if_pos h3]
          rw [List.filter_cons_of_pos (by simpa using Int.not_lt.mp h0)]
          exact congrArg (List.cons g) ih.1
        · intro g' hg' hge hlt
          simp only [dropGroups, hrec, if_neg h0, if_pos h3]
          rcases List.mem_cons.mp hg' with he | hm
          · subst he; exact List.mem_cons_self _ _
          · exact List.mem_cons_of_mem _ (ih.2 g' hm hge hlt)
      · refine ⟨?_, ?_⟩
        · simp only [dropGroups, hrec, if_neg h0, if_neg h3]
          rw [List.filter_cons_of_pos (by simpa using Int.not_lt.mp h0)]
          exact congrArg (List.cons g) ih.1
        · intro g' hg' hge hlt
          simp only [dropGroups, hrec, if_neg h0, if_neg h3]
          rcases List.mem_cons.mp hg' with he | hm
          · subst he; omega
          · exact ih.2 g' hm hge hlt

/-- C3 counterexample: decoding `"v 0 0 0\nf 1 1 9"` (the third reference
is out of range, a non-fatal error) leaves 2 indices in the Mesh — not a
multiple of 3 — and the Writer's multiple-of-3 check then fails on this
parser-produced Mesh. -/
theorem indices_multiple_of_three_counterexample :
    (match newObjFromBuf "demo" "v 0 0 0\nf 1 1 9" {} with
     | .ok o _ => (o.indices.length, o.indices.length % 3, WriterOut.isErr (toWriter o))
     | .crash => (0, 0, false)) = (2, 2, true) := by decide

/-- C3 (amended): when every face line of the input replays without a
non-fatal error, the decoded Mesh's index list has length a multiple of 3,
every group's count is a multiple of 3, and the Writer's multiple-of-3
check never fails on it; a face line that errors mid-way can leave a
non-multiple count (see the counterexample). -/
theorem indices_multiple_of_three :
    ∀ (objName : String) (lines : List String) (options : ObjParserOptions)
      (o : Obj) (logs : List String),
      readObj objName lines options = .ok o logs →
      replayFacesOk lines options = true →
      o.indices.length % 3 = 0 ∧
      (∀ g ∈ o.groups, g.indexCount % 3 = 0) ∧
      WriterOut.isErr (toWriter o) = false := by
  intro objName lines options o logs h hfo
  have ho1 : (readLines {} {} lines options).2.1 = ({} : Obj) :=
    readLines_obj {} {} lines options
  have h' : finishObj objName (readLines {} {} lines options).2.2 options
      (scanLines { (readLines {} {} lines options).1 with
        faceLines := 0, vertLines := 0, textLines := 0, normLines := 0 }
        (readLines {} {} lines options).2.1 options) = .ok o logs := h
  rw [ho1] at h'
  have hS : scanLines { (readLines {} {} lines options).1 with
        faceLines := 0, vertLines := 0, textLines := 0, normLines := 0 }
        ({} : Obj) options =
      scanLoop ({ { (readLines {} {} lines options).1 with
            faceLines := 0, vertLines := 0, textLines := 0, normLines := 0 } with
          currGroup := (Obj.newGroup {} "" "" 0 0).2 }).lineBuf
        { { { (readLines {} {} lines options).1 with
            faceLines := 0, vertLines := 0, textLines := 0, normLines := 0 } with
          currGroup := (Obj.newGroup {} "" "" 0 0).2 } with lineCount := 0 }
        (Obj.newGroup {} "" "" 0 0).1 [] options := rfl
  rw [hS] at h'
  rcases hsc : scanLoop ({ { (readLines {} {} lines options).1 with
        faceLines := 0, vertLines := 0, textLines := 0, normLines := 0 } with
      currGroup := (Obj.newGroup {} "" "" 0 0).2 }).lineBuf
      { { { (readLines {} {} lines options).1 with
          faceLines := 0, vertLines := 0, textLines := 0, normLines := 0 } with
        currGroup := (Obj.newGroup {} "" "" 0 0).2 } with lineCount := 0 }
      (Obj.newGroup {} "" "" 0 0).1 [] options with
    ⟨p2, o2, logs2⟩ | -
  · rw [hsc] at h'
    unfold finishObj at h'
    rw [DecodeOut.ok.injEq] at h'
    obtain ⟨ho', -⟩ := h'
    subst ho'
    have hinvEnd : meshInv p2.currGroup o2 := by
      refine scanLoop_inv _ _ _ _ options p2 o2 logs2 hsc ?_ ?_
      · have hfo' : replayFacesOk lines options = true := hfo
        unfold replayFacesOk at hfo'
        dsimp only at hfo'
        rw [ho1] at hfo'
        exact hfo'
      · refine ⟨by decide, by decide, ?_⟩
        show (getGroup (Obj.newGroup {} "" "" 0 0).1 0).indexCount % 3 = 0
        decide
    obtain ⟨hI, hG, -⟩ := hinvEnd
    have hfields := setupStride_fields { o2 with
      groups := (dropGroups objName o2.groups).1 }
    have hGroups : ∀ g ∈ (setupStride { o2 with
        groups := (dropGroups objName o2.groups).1 }).groups, g.indexCount % 3 = 0 := by
      intro g hg
      rw [hfields.2] at hg
      have hg' : g ∈ (dropGroups objName o2.groups).1 := hg
      rw [(dropGroups_spec objName o2.groups).1] at hg'
      obtain ⟨hmem, hpos⟩ := List.mem_filter.mp hg'
      rcases hG g hmem with h3 | hneg
      · exact h3
      · rw [hneg] at hpos
        exact absurd hpos (by decide)
    exact ⟨by rw [hfields.1]; exact hI, hGroups, toWriter_isErr _ hGroups⟩
  · rw [hsc] at h'
    exact absurd h' (by simp [finishObj])

/-- The decode of one vertex and one error-free face (witness plumbing). -/
def c3s : DecodeOut := readObj "w" ["v 0 0 0", "f 1 1 1"] {}

def c3obj : Obj := match c3s with | .ok o _ => o | _ => default

def c3logs : List String := match c3s with | .ok _ lg => lg | _ => []

/-- Witness for `indices_multiple_of_three`: the error-free decode of
`v 0 0 0` and `f 1 1 1` yields whole triangles and a writable Mesh. -/
theorem indices_multiple_of_three_witness :
    c3obj.indices.length % 3 = 0 ∧ (∀ g ∈ c3obj.groups, g.indexCount % 3 = 0) ∧
    WriterOut.isErr (toWriter c3obj) = false :=
  indices_multiple_of_three "w" ["v 0 0 0", "f 1 1 1"] {} c3obj c3logs
    (by decide) (by decide)

/-! ## C6: welding of references with identical resolved triples -/

/-- The successive `addVertex` calls a face pass performs on a list of
references (each call threads the mutated states into the next). -/
def avFold (p : ObjParser) (o : Obj) (rs : List String)
    (options : ObjParserOptions) : AVOut :=
  match rs with
  | [] => .ok p o
  | r :: rest =>
    match addVertex p o r options with
    | .ok p o => avFold p o rest options
    | .err p o m => .err p o m
    | .crash => .crash

/-- References whose composite key is already mapped leave the parser state
untouched and only push the recorded unified index, once per reference. -/
theorem avFold_dedup (rs : List String) (p : ObjParser) (o : Obj)
    (options : ObjParserOptions) (vi ti : Int) (tI : String) (ni : Int)
    (nI : String) (ht : Bool) (k : String) (i : Int)
    (hl : p.indexTable.lookup k = some i) :
    ∀ (hres : ∀ s ∈ rs, resolveRef p s = .ok vi ti tI ni nI ht k),
    ∃ o₂, avFold p o rs options = .ok p o₂ ∧
      o₂.indices = o.indices ++ List.replicate rs.length i ∧
      o₂.coord = o.coord := by
  induction rs generalizing o with
  | nil => exact fun _ => ⟨o, rfl, by simp, rfl⟩
  | cons s rest ih =>
    intro hres
    have hstep := addVertex_of_lookup o options (hres s (List.mem_cons_self _ _)) hl
    obtain ⟨o₂, hfold, hind, hcoord⟩ := ih (pushIndex p.currGroup o i)
      (fun s' hs' => hres s' (List.mem_cons_of_mem _ hs'))
    refine ⟨o₂, ?_, ?_, ?_⟩
    · show avFold p o (s :: rest) options = _
      unfold avFold
      rw [hstep]
      exact hfold
    · rw [hind, pushIndex_indices]
      simp [List.replicate_succ]
    · rw [hcoord, pushIndex_coord]

/-- C6: when every reference of a run resolves to the identical
(position, texture, normal) triple — the composite key records absence of
a component as an empty slot, distinct from every present index — and the
triple's key is not yet in the deduplication table, a successful run
appends exactly one interleaved vertex record (its width given by which
components are present), pushes one copy of the single fresh unified index
per reference, and grows the unified-vertex counter by exactly one. -/
theorem vertex_welding
    (p : ObjParser) (o : Obj) (r : String) (rs : List String)
    (options : ObjParserOptions)
    (vi ti : Int) (tI : String) (ni : Int) (nI : String) (ht : Bool) (k : String)
    (p' : ObjParser) (o' : Obj)
    (hres : ∀ s ∈ r :: rs, resolveRef p s = .ok vi ti tI ni nI ht k)
    (hnew : p.indexTable.lookup k = none)
    (hok : avFold p o (r :: rs) options = .ok p' o') :
    o'.indices = o.indices ++ List.replicate (r :: rs).length (p.indexCount : Int) ∧
    o'.coord.length = o.coord.length +
      (3 + (if tI ≠ "" ∧ ht = true then 2 else 0) +
       (if ¬ options.ignoreNormals ∧ nI ≠ "" then 3 else 0)) ∧
    p'.indexCount = p.indexCount + 1 := by
  unfold avFold at hok
  split at hok
  · rename_i p₁ o₁ heq
    obtain ⟨vi', ti', tI', ni', nI', ht', k', hres', hcase⟩ := addVertex_ok heq
    rw [hres r (List.mem_cons_self _ _)] at hres'
    obtain ⟨hv, hti, htI, hni, hnI, hht, hk⟩ := RefResult.ok.inj hres'
    subst hv; subst hti; subst htI; subst hni; subst hnI; subst hht; subst hk
    rcases hcase with ⟨i, hl, -, -⟩ | ⟨-, hp₁, hind₁, hlen₁, -, -⟩
    · rw [hnew] at hl
      exact absurd hl (by simp)
    · subst hp₁
      have hres₁ : ∀ s ∈ rs, resolveRef (insertKey p k) s = .ok vi ti tI ni nI ht k :=
        fun s hs => (resolveRef_congr s rfl rfl rfl rfl).trans
          (hres s (List.mem_cons_of_mem _ hs))
      have hl₁ : (insertKey p k).indexTable.lookup k = some p.indexCount :=
        lookup_append_right hnew
      obtain ⟨o₂, hfold, hind₂, hcoord₂⟩ :=
        avFold_dedup rs (insertKey p k) o₁ options vi ti tI ni nI ht k
          p.indexCount hl₁ hres₁
      rw [hfold] at hok
      obtain ⟨hp', ho'⟩ := AVOut.ok.inj hok
      subst hp'; subst ho'
      refine ⟨?_, ?_, rfl⟩
      · rw [hind₂, hind₁]
        simp [List.replicate_succ]
      · rw [hcoord₂, hlen₁]
  · exact absurd hok (by simp)
  · exact absurd hok (by simp)

/-- One collected vertex and an empty deduplication table
(witness plumbing). -/
def c6p : ObjParser := { vertCoord := [⟨1, 1⟩, ⟨2, 1⟩, ⟨3, 1⟩] }

/-- The Mesh state the run starts from, with its implicit group
(witness plumbing). -/
def c6o : Obj :=
  { groups := [{ name := "", smooth := 0, usemtl := "", indexBegin := 0, indexCount := 0 }] }

/-- The run of three references `1 1 1` (witness plumbing). -/
def c6s : AVOut := avFold c6p c6o ["1", "1", "1"] {}

def c6p2 : ObjParser := match c6s with | .ok p _ => p | _ => default

def c6o2 : Obj := match c6s with | .ok _ o => o | _ => default

/-- Witness for `vertex_welding`: three references `1` over one collected
vertex append one 3-component record and push three copies of index 0. -/
theorem vertex_welding_witness :
    c6o2.indices =
      c6o.indices ++ List.replicate ("1" :: ["1", "1"]).length ((c6p.indexCount : Int)) ∧
    c6o2.coord.length = c6o.coord.length +
      (3 + (if ("" : String) ≠ "" ∧ false = true then 2 else 0) +
       (if ¬ ({} : ObjParserOptions).ignoreNormals ∧ ("" : String) ≠ "" then 3 else 0)) ∧
    c6p2.indexCount = c6p.indexCount + 1 :=
  vertex_welding c6p c6o "1" ["1", "1"] {} 0 0 "" 0 "" false "0//" c6p2 c6o2
    (by decide) (by decide) (by decide)

/-! ## C10: material directives and empty-group pruning -/

/-- C10: a `usemtl` directive that replaces the active group while the
group's index count is zero marks the replaced group with the sentinel
count -1 and appends a fresh group for the new material; the output step
drops exactly the groups with negative count and reports every kept group
with fewer than 3 indices; and a decode of two consecutive `usemtl` lines
with no intervening face yields a single group carrying the second
material. -/
theorem material_group_pruning :
    (∀ (p : ObjParser) (o : Obj) (options : ObjParserOptions) (name : String),
      (getGroup o p.currGroup).usemtl ≠ "" →
      (getGroup o p.currGroup).usemtl ≠ name →
      (getGroup o p.currGroup).indexCount = 0 →
      parseLine p o ("usemtl " ++ name) options =
        .ok { p with currGroup := o.groups.length }
          { o with groups :=
              (setGroup o p.currGroup
                  { getGroup o p.currGroup with indexCount := -1 }).groups ++
              [{ name := (getGroup o p.currGroup).name, usemtl := name,
                 indexBegin := (o.indices.length : Int),
                 smooth := (getGroup o p.currGroup).smooth, indexCount := 0 }] } []) ∧
    (∀ (objName : String) (gs : List Group),
      (dropGroups objName gs).1 = gs.filter (fun g => 0 ≤ g.indexCount) ∧
      ∀ g ∈ gs, 0 ≤ g.indexCount → g.indexCount < 3 →
        ("readObj: obj=" ++ objName ++ " BAD GROUP SIZE group=" ++ g.name ++
          " size=" ++ toString g.indexCount ++ " < 3") ∈ (dropGroups objName gs).2) ∧
    (match newObjFromBuf "demo" "usemtl a\nusemtl b" {} with
     | .ok o _ => o.groups.map (fun (g : Group) => (g.name, g.usemtl, g.indexCount))
     | .crash => []) = [("", "b", 0)] := by
  refine ⟨?_, dropGroups_spec, by decide⟩
  intro p o options name hu1 hu2 h0
  have hne : ("usemtl " ++ name) ≠ "" := str_ne_empty_of_append name (by decide)
  have hfr : goFront ("usemtl " ++ name) = 'u' := rfl
  have hs : goHasPfx "s " ("usemtl " ++ name) = false := rfl
  have ho1 : goHasPfx "o " ("usemtl " ++ name) = false := rfl
  have hg1 : goHasPfx "g " ("usemtl " ++ name) = false := rfl
  have hum : goHasPfx "usemtl " ("usemtl " ++ name) = true := goHasPfx_append _ _
  have hdrop : goDrop ("usemtl " ++ name) 7 = name := rfl
  simp only [parseLine, hne, hfr, hs, ho1, hg1, hum, hdrop, if_true, if_false,
    Bool.false_eq_true, Bool.true_eq_false, or_self, ite_false, ite_true, false_or]
  rw [if_neg (by decide : ¬ ('u' : Char) = '#')]
  rw [if_neg hu1, if_pos hu2, if_pos h0]
  simp only [Obj.newGroup, setGroup, List.length_set]

/-- A Mesh whose single active group already carries material `a`
(witness plumbing). -/
def c10o : Obj :=
  { groups := [{ name := "", smooth := 0, usemtl := "a", indexBegin := 0, indexCount := 0 }] }

/-- Witness for `material_group_pruning`: replacing material `a` by `b` on
an empty group marks it with count -1 and appends the group for `b`. -/
theorem material_group_pruning_witness :
    parseLine {} c10o ("usemtl " ++ "b") {} =
      .ok { ({} : ObjParser) with currGroup := c10o.groups.length }
        { c10o with groups :=
            (setGroup c10o ({} : ObjParser).currGroup
                { getGroup c10o ({} : ObjParser).currGroup with indexCount := -1 }).groups ++
            [{ name := (getGroup c10o ({} : ObjParser).currGroup).name, usemtl := "b",
               indexBegin := (c10o.indices.length : Int),
               smooth := (getGroup c10o ({} : ObjParser).currGroup).smooth,
               indexCount := 0 }] } [] :=
  material_group_pruning.1 {} c10o {} "b" (by decide) (by decide) (by decide)

end Gwob
